import Mathlib

/-!
# Verification of the sitemap_generator library

Shallow embedding of the entry types, validator, XML writer, parser and
builder facades of the `sitemap_generator` Rust crate, together with
theorems settling the frozen specification claims.

Conventions of the embedding:

* Rust `String` is Lean `String`; Rust `str::len()` (UTF-8 byte length) is
  `rustLen`.
* Rust `f32` is an abstract type parameter `F`; the external operations the
  crate applies to it (`Display`, `FromStr`, range containment from
  `(0.0..=1.0).contains` / `(0.0..=5.0).contains`) are fields of the
  `Externals` structure, as is `url::Url::parse` from the external `url`
  crate (as a Boolean success predicate).
* The external `quick_xml` crate is modelled at its event interface:
  the writer produces a list of `XmlEvent`s; `serializeFrom` models
  quick-xml's indenting `Writer` (indent two spaces, newline before every
  non-text event except when the previous event was text, declaration
  first); `transport` models the reader's event stream after
  `trim_text(true)` (text trimmed, whitespace-only text dropped).
  quick-xml's `BytesText::new` escapes its argument (its documentation:
  "the string is expected not to be escaped"), modelled by `qxEscape`;
  the reader's `unescape` is modelled by `unescape` (the five named
  entities; numeric character references do not occur in this crate's
  output).
-/

deriving instance DecidableEq for Except

set_option maxRecDepth 8000

namespace SitemapGen

/-- Rust `str::len()`: the UTF-8 byte length of a string. -/
def rustLen (s : String) : Nat := (s.data.map Char.utf8Size).sum

/-- The apostrophe character (written via its code point). -/
def apos : Char := Char.ofNat 39

/-- Replacement text of `&` -/
def ampRep : List Char := ['&', 'a', 'm', 'p', ';']

/-- Replacement text of `<` -/
def ltRep : List Char := ['&', 'l', 't', ';']

/-- Replacement text of `>` -/
def gtRep : List Char := ['&', 'g', 't', ';']

/-- Replacement text of `"` -/
def quotRep : List Char := ['&', 'q', 'u', 'o', 't', ';']

/-- Replacement text of the apostrophe -/
def aposRep : List Char := ['&', 'a', 'p', 'o', 's', ';']

/-- Rust `str::replace(c, rep)` restricted to single-character patterns. -/
def replaceChar (c : Char) (rep : List Char) (l : List Char) : List Char :=
  (l.map (fun d => if d = c then rep else [d])).flatten

/-- `XmlWriter::escape_xml`: the chain of five `replace` calls from
`writer.rs`, ampersand first. -/
def escapeXmlChars (l : List Char) : List Char :=
  replaceChar apos aposRep
    (replaceChar '"' quotRep
      (replaceChar '>' gtRep
        (replaceChar '<' ltRep
          (replaceChar '&' ampRep l))))

/-- `XmlWriter::escape_xml` on strings. -/
def escapeXml (s : String) : String := String.mk (escapeXmlChars s.data)

/-- The single-pass entity substitution of quick-xml's `escape`
(used by `BytesText::new` on the content handed to it). -/
def entityOf (c : Char) : List Char :=
  if c = '&' then ampRep
  else if c = '<' then ltRep
  else if c = '>' then gtRep
  else if c = '"' then quotRep
  else if c = apos then aposRep
  else [c]

/-- quick-xml's `escape` over a character list. -/
def qxEscapeChars (l : List Char) : List Char := (l.map entityOf).flatten

/-- quick-xml's `escape` on strings. -/
def qxEscape (s : String) : String := String.mk (qxEscapeChars s.data)

/-- quick-xml's `unescape` (the reader side), resolving the five named
entities left to right. -/
def unescapeChars (l : List Char) : List Char :=
  match l with
  | [] => []
  | c :: rest =>
    if c = '&' then
      if rest.take 4 = ['a', 'm', 'p', ';'] then '&' :: unescapeChars (rest.drop 4)
      else if rest.take 3 = ['l', 't', ';'] then '<' :: unescapeChars (rest.drop 3)
      else if rest.take 3 = ['g', 't', ';'] then '>' :: unescapeChars (rest.drop 3)
      else if rest.take 5 = ['q', 'u', 'o', 't', ';'] then '"' :: unescapeChars (rest.drop 5)
      else if rest.take 5 = ['a', 'p', 'o', 's', ';'] then apos :: unescapeChars (rest.drop 5)
      else c :: unescapeChars rest
    else c :: unescapeChars rest
termination_by l.length
decreasing_by
  all_goals simp [List.length_drop]
  all_goals omega

/-- quick-xml's `unescape` on strings. -/
def unescape (s : String) : String := String.mk (unescapeChars s.data)

/-- `true` when none of the five XML-reserved characters occurs. -/
def noSpecials (s : String) : Bool :=
  s.data.all (fun c => !(c = '&' || c = '<' || c = '>' || c = '"' || c = apos))

/-- XML whitespace (the characters quick-xml's `trim_text` strips). -/
def isXmlWs (c : Char) : Bool := c = ' ' || c = '\t' || c = '\n' || c = '\r'

/-- The trimming applied by quick-xml's reader under `trim_text(true)`:
XML whitespace stripped from both ends of text content. -/
def xmlTrim (s : String) : String :=
  String.mk (((s.data.dropWhile isXmlWs).reverse.dropWhile isXmlWs).reverse)

/-- A text value that survives the XML transport unchanged: free of the
five reserved characters and of leading/trailing whitespace. -/
def cleanText (s : String) : Prop := noSpecials s = true ∧ xmlTrim s = s

/-- Rust `str::split(c)` on a character list: the splitter consumed, empty
segments kept (`"".split(c)` is `[""]`). -/
def splitCharAux (c : Char) : List Char → List Char → List (List Char)
  | [], acc => [acc.reverse]
  | d :: rest, acc =>
    if d = c then acc.reverse :: splitCharAux c rest []
    else splitCharAux c rest (d :: acc)

/-- Rust `str::split(c)` on strings. -/
def rustSplitChar (c : Char) (s : String) : List String :=
  (splitCharAux c s.data []).map String.mk

/-- Rust `str::trim()` (whitespace stripped from both ends). -/
def rustTrim (s : String) : String :=
  String.mk (((s.data.dropWhile Char.isWhitespace).reverse.dropWhile
    Char.isWhitespace).reverse)

/-! ## Entry types (`types.rs`) -/

/-- `ChangeFreq` -/
inductive ChangeFreq
  | always | hourly | daily | weekly | monthly | yearly | never
deriving DecidableEq, Repr

/-- `ChangeFreq::as_str` -/
def ChangeFreq.asStr : ChangeFreq → String
  | .always => "always"
  | .hourly => "hourly"
  | .daily => "daily"
  | .weekly => "weekly"
  | .monthly => "monthly"
  | .yearly => "yearly"
  | .never => "never"

/-- `UrlEntry`; `F` stands for Rust's `f32`. -/
structure UrlEntry (F : Type) where
  loc : String
  lastmod : Option String
  changefreq : Option ChangeFreq
  priority : Option F
deriving DecidableEq, Repr

/-- `GeoLocation` -/
structure GeoLocation where
  city : Option String
  state : Option String
  country : Option String
deriving DecidableEq, Repr

/-- `ImageEntry` -/
structure ImageEntry where
  loc : String
  caption : Option String
  geo_location : Option GeoLocation
  title : Option String
  license : Option String
deriving DecidableEq, Repr

/-- `UrlWithImages` -/
structure UrlWithImages (F : Type) where
  url : UrlEntry F
  images : List ImageEntry
deriving DecidableEq, Repr

/-- `VideoPlatform` -/
inductive VideoPlatform
  | web | mobile | tv
deriving DecidableEq, Repr

/-- `VideoPlatform::as_str` -/
def VideoPlatform.asStr : VideoPlatform → String
  | .web => "web"
  | .mobile => "mobile"
  | .tv => "tv"

/-- `VideoPlatformRestriction` -/
inductive VideoPlatformRestriction
  | allow (platforms : List VideoPlatform)
  | deny (platforms : List VideoPlatform)
deriving DecidableEq, Repr

/-- `VideoCountryRestriction` -/
inductive VideoCountryRestriction
  | allow (countries : List String)
  | deny (countries : List String)
deriving DecidableEq, Repr

/-- `VideoPrice` -/
structure VideoPrice (F : Type) where
  currency : String
  amount : F
  resolution : Option String
  type_ : Option String
deriving DecidableEq, Repr

/-- `VideoRequiresSubscription` -/
inductive VideoRequiresSubscription
  | yes | no
deriving DecidableEq, Repr

/-- `VideoRequiresSubscription::as_str` -/
def VideoRequiresSubscription.asStr : VideoRequiresSubscription → String
  | .yes => "yes"
  | .no => "no"

/-- `VideoUploader` -/
structure VideoUploader where
  name : String
  info_url : Option String
deriving DecidableEq, Repr

/-- `VideoLive` -/
inductive VideoLive
  | yes | no
deriving DecidableEq, Repr

/-- `VideoLive::as_str` -/
def VideoLive.asStr : VideoLive → String
  | .yes => "yes"
  | .no => "no"

/-- `VideoEntry` -/
structure VideoEntry (F : Type) where
  thumbnail_loc : String
  title : String
  description : String
  content_loc : Option String
  player_loc : Option String
  duration : Option Nat
  publication_date : Option String
  expiration_date : Option String
  rating : Option F
  view_count : Option Nat
  family_friendly : Option Bool
  tags : List String
  category : Option String
  restriction : Option VideoCountryRestriction
  gallery_loc : Option String
  platform : Option VideoPlatformRestriction
  prices : List (VideoPrice F)
  requires_subscription : Option VideoRequiresSubscription
  uploader : Option VideoUploader
  live : Option VideoLive
deriving DecidableEq, Repr

/-- `UrlWithVideos` -/
structure UrlWithVideos (F : Type) where
  url : UrlEntry F
  videos : List (VideoEntry F)
deriving DecidableEq, Repr

/-- `SitemapIndexEntry` -/
structure SitemapIndexEntry where
  loc : String
  lastmod : Option String
deriving DecidableEq, Repr

/-- `NewsPublication` -/
structure NewsPublication where
  name : String
  language : String
deriving DecidableEq, Repr

/-- `NewsEntry` -/
structure NewsEntry where
  publication : NewsPublication
  publication_date : String
  title : String
  keywords : Option String
  stock_tickers : Option String
deriving DecidableEq, Repr

/-- `UrlWithNews` -/
structure UrlWithNews (F : Type) where
  url : UrlEntry F
  news : NewsEntry
deriving DecidableEq, Repr

/-- `UrlWithExtensions` -/
structure UrlWithExtensions (F : Type) where
  url : UrlEntry F
  images : List ImageEntry
  videos : List (VideoEntry F)
  news : Option NewsEntry
deriving DecidableEq, Repr

/-- The error taxonomy (`error.rs`), restricted to the variants the core
can produce; `F` is the `f32` stand-in carried by `InvalidPriority`. -/
inductive Err (F : Type)
  | invalidUrl (url : String)
  | urlTooLong (url : String)
  | tooManyUrls (count : Nat)
  | sizeExceeded (size : Nat)
  | invalidDate (date : String)
  | invalidPriority (p : F)
  | invalidChangeFreq (s : String)
  | validation (msg : String)
  | xmlErr (msg : String)
deriving DecidableEq, Repr

/-- External collaborators of the core, bundled: Rust `f32` formatting
(`Display`), parsing (`FromStr`), the two range containment tests used by
the validator, and `url::Url::parse` from the `url` crate as a success
predicate. The claims are settled for every instantiation; concrete
instances are used only in witnesses and counterexamples. -/
structure Externals (F : Type) where
  fmtF : F → String
  parseF : String → Option F
  urlOk : String → Bool
  prio01 : F → Bool
  rating05 : F → Bool

variable {F : Type}

/-! ## Validator (`validator.rs`) -/

/-- `MAX_URLS` -/
def MAX_URLS : Nat := 50000

/-- `MAX_SIZE_BYTES` -/
def MAX_SIZE_BYTES : Nat := 52428800

/-- `MAX_URL_LENGTH` -/
def MAX_URL_LENGTH : Nat := 2048

/-- `MAX_NEWS_URLS` -/
def MAX_NEWS_URLS : Nat := 1000

/-- `Validator::validate_url`: length check first, then the parse
attempt (`url::Url::parse`, the external predicate). -/
def validateUrl (X : Externals F) (url : String) : Except (Err F) Unit :=
  if MAX_URL_LENGTH < rustLen url then .error (.urlTooLong url)
  else if X.urlOk url then .ok () else .error (.invalidUrl url)

/-- `Validator::validate_priority` (`(0.0..=1.0).contains`, via the
external range test). -/
def validatePriority (X : Externals F) (p : F) : Except (Err F) Unit :=
  if X.prio01 p then .ok () else .error (.invalidPriority p)

/-- Rust `char::is_numeric`, on the ASCII fragment exercised by this
crate (Unicode numerals behave identically for every claim below). -/
def isNum (c : Char) : Bool := c.isDigit

/-- `Validator::validate_date` -/
def validateDate (date : String) : Except (Err F) Unit :=
  if rustLen date < 10 then .error (.invalidDate date)
  else
    let parts := rustSplitChar '-' date
    if parts.length < 3 then .error (.invalidDate date)
    else if ¬(rustLen (parts.getD 0 "") = 4 ∧ (parts.getD 0 "").data.all isNum) then
      .error (.invalidDate date)
    else if ¬(rustLen (parts.getD 1 "") = 2 ∧ (parts.getD 1 "").data.all isNum) then
      .error (.invalidDate date)
    else if ¬(2 ≤ rustLen (parts.getD 2 "") ∧ ((parts.getD 2 "").data.take 2).all isNum) then
      .error (.invalidDate date)
    else .ok ()

/-- `Validator::validate_url_count` -/
def validateUrlCount (count : Nat) : Except (Err F) Unit :=
  if MAX_URLS < count then .error (.tooManyUrls count) else .ok ()

/-- `Validator::validate_size` -/
def validateSize (size : Nat) : Except (Err F) Unit :=
  if MAX_SIZE_BYTES < size then .error (.sizeExceeded size) else .ok ()

/-- `Validator::validate_video_duration` -/
def validateVideoDuration (duration : Nat) : Except (Err F) Unit :=
  if 28800 < duration then
    .error (.validation ("Video duration exceeds maximum (28800 seconds): " ++ toString duration))
  else .ok ()

/-- `Validator::validate_video_rating` (`(0.0..=5.0).contains`). -/
def validateVideoRating (X : Externals F) (rating : F) : Except (Err F) Unit :=
  if X.rating05 rating then .ok ()
  else .error (.validation ("Video rating must be between 0.0 and 5.0: " ++ X.fmtF rating))

/-- `Validator::validate_video_title` -/
def validateVideoTitle (title : String) : Except (Err F) Unit :=
  if 100 < rustLen title then
    .error (.validation ("Video title exceeds 100 characters: " ++ toString (rustLen title)))
  else .ok ()

/-- `Validator::validate_video_description` -/
def validateVideoDescription (description : String) : Except (Err F) Unit :=
  if 2048 < rustLen description then
    .error (.validation ("Video description exceeds 2048 characters: " ++
      toString (rustLen description)))
  else .ok ()

/-- `Validator::validate_news_url_count` -/
def validateNewsUrlCount (count : Nat) : Except (Err F) Unit :=
  if MAX_NEWS_URLS < count then
    .error (.validation ("News sitemap exceeds maximum of " ++ toString MAX_NEWS_URLS ++
      " URLs: " ++ toString count))
  else .ok ()

/-- Rust `char::is_ascii_lowercase` -/
def isAsciiLower (c : Char) : Bool := 'a' ≤ c && c ≤ 'z'

/-- `Validator::validate_language_code` -/
def validateLanguageCode (code : String) : Except (Err F) Unit :=
  let len := rustLen code
  if (len = 2 ∨ len = 3) ∧ code.data.all isAsciiLower then .ok ()
  else if code = "zh-cn" ∨ code = "zh-tw" then .ok ()
  else .error (.validation ("Invalid language code (must be ISO 639 2-3 letters or zh-cn/zh-tw): "
    ++ code))

/-- `Validator::validate_stock_tickers` -/
def validateStockTickers (tickers : String) : Except (Err F) Unit :=
  let tickerList := (rustSplitChar ',' tickers).map rustTrim
  if 5 < tickerList.length then
    .error (.validation ("Stock tickers exceed maximum of 5: " ++ toString tickerList.length))
  else .ok ()

/-! ## XML events and the writer (`writer.rs`)

The writer is embedded at quick-xml's event interface: each `write_event`
call of the source becomes one `XmlEvent`. A `text` event carries the byte
content that ends up in the document (i.e. after `BytesText::new` has
applied quick-xml's `escape` to its argument). -/

/-- One quick-xml event as emitted by `XmlWriter` / consumed by
`SitemapParser`. -/
inductive XmlEvent
  | decl
  | start (name : String) (attrs : List (String × String))
  | text (raw : String)
  | endTag (name : String)
  | eof
deriving DecidableEq, Repr

/-- `SITEMAP_NS` -/
def sitemapNS : String := "http://www.sitemaps.org/schemas/sitemap/0.9"

/-- `IMAGE_NS` -/
def imageNS : String := "http://www.google.com/schemas/sitemap-image/1.1"

/-- `VIDEO_NS` -/
def videoNS : String := "http://www.google.com/schemas/sitemap-video/1.1"

/-- `NEWS_NS` -/
def newsNS : String := "http://www.google.com/schemas/sitemap-news/0.9"

/-- Events of an `if let Some(x) = o { ... }` block. -/
def optEvents {α : Type} (o : Option α) (f : α → List XmlEvent) : List XmlEvent :=
  match o with
  | some x => f x
  | none => []

/-- Events of a `for x in l { ... }` loop. -/
def listEvents {α : Type} (l : List α) (f : α → List XmlEvent) : List XmlEvent :=
  (l.map f).flatten

/-- `XmlWriter::write_text_element`: start tag, text, end tag. The text
content stored by `BytesText::new(&Self::escape_xml(text))` is
`qxEscape (escapeXml text)`, since `BytesText::new` escapes its argument
a second time. -/
def writeTextElem (name t : String) : List XmlEvent :=
  [.start name [], .text (qxEscape (escapeXml t)), .endTag name]

/-- `XmlWriter::write_url_entry` -/
def writeUrlEntryEvents (X : Externals F) (e : UrlEntry F) : List XmlEvent :=
  [.start "url" []]
  ++ writeTextElem "loc" e.loc
  ++ optEvents e.lastmod (fun l => writeTextElem "lastmod" l)
  ++ optEvents e.changefreq (fun c => writeTextElem "changefreq" c.asStr)
  ++ optEvents e.priority (fun p => writeTextElem "priority" (X.fmtF p))
  ++ [.endTag "url"]

/-- `XmlWriter::write_sitemap` -/
def writeSitemapEvents (X : Externals F) (entries : List (UrlEntry F)) : List XmlEvent :=
  [.decl, .start "urlset" [("xmlns", sitemapNS)]]
  ++ listEvents entries (writeUrlEntryEvents X)
  ++ [.endTag "urlset"]

/-- `XmlWriter::write_image_entry`, including the city > state > country
priority choice for the single emitted `image:geo_location`. -/
def writeImageEntryEvents (image : ImageEntry) : List XmlEvent :=
  [.start "image:image" []]
  ++ writeTextElem "image:loc" image.loc
  ++ optEvents image.caption (fun c => writeTextElem "image:caption" c)
  ++ optEvents image.geo_location (fun geo =>
      match geo.city with
      | some city => writeTextElem "image:geo_location" city
      | none =>
        match geo.state with
        | some state => writeTextElem "image:geo_location" state
        | none =>
          match geo.country with
          | some country => writeTextElem "image:geo_location" country
          | none => [])
  ++ optEvents image.title (fun t => writeTextElem "image:title" t)
  ++ optEvents image.license (fun l => writeTextElem "image:license" l)
  ++ [.endTag "image:image"]

/-- `XmlWriter::write_url_with_images` -/
def writeUrlWithImagesEvents (X : Externals F) (e : UrlWithImages F) : List XmlEvent :=
  [.start "url" []]
  ++ writeTextElem "loc" e.url.loc
  ++ optEvents e.url.lastmod (fun l => writeTextElem "lastmod" l)
  ++ optEvents e.url.changefreq (fun c => writeTextElem "changefreq" c.asStr)
  ++ optEvents e.url.priority (fun p => writeTextElem "priority" (X.fmtF p))
  ++ listEvents e.images writeImageEntryEvents
  ++ [.endTag "url"]

/-- `XmlWriter::write_image_sitemap`: the image namespace is pushed
unconditionally. -/
def writeImageSitemapEvents (X : Externals F) (entries : List (UrlWithImages F)) :
    List XmlEvent :=
  [.decl, .start "urlset" [("xmlns", sitemapNS), ("xmlns:image", imageNS)]]
  ++ listEvents entries (writeUrlWithImagesEvents X)
  ++ [.endTag "urlset"]

/-- The `video:restriction` / `video:platform` shaped element: a start tag
with a `relationship` attribute, body text written through
`BytesText::new` only (a single escaping pass). -/
def relationshipElem (name rel body : String) : List XmlEvent :=
  [.start name [("relationship", rel)], .text (qxEscape body), .endTag name]

/-- `XmlWriter::write_video_entry` -/
def writeVideoEntryEvents (X : Externals F) (video : VideoEntry F) : List XmlEvent :=
  [.start "video:video" []]
  ++ writeTextElem "video:thumbnail_loc" video.thumbnail_loc
  ++ writeTextElem "video:title" video.title
  ++ writeTextElem "video:description" video.description
  ++ optEvents video.content_loc (fun l => writeTextElem "video:content_loc" l)
  ++ optEvents video.player_loc (fun l => writeTextElem "video:player_loc" l)
  ++ optEvents video.duration (fun d => writeTextElem "video:duration" (toString d))
  ++ optEvents video.publication_date (fun d => writeTextElem "video:publication_date" d)
  ++ optEvents video.expiration_date (fun d => writeTextElem "video:expiration_date" d)
  ++ optEvents video.rating (fun r => writeTextElem "video:rating" (X.fmtF r))
  ++ optEvents video.view_count (fun v => writeTextElem "video:view_count" (toString v))
  ++ optEvents video.family_friendly (fun ff =>
      writeTextElem "video:family_friendly" (if ff then "yes" else "no"))
  ++ listEvents video.tags (fun tag => writeTextElem "video:tag" tag)
  ++ optEvents video.category (fun c => writeTextElem "video:category" c)
  ++ optEvents video.restriction (fun r =>
      match r with
      | .allow countries =>
        relationshipElem "video:restriction" "allow" (String.intercalate " " countries)
      | .deny countries =>
        relationshipElem "video:restriction" "deny" (String.intercalate " " countries))
  ++ optEvents video.gallery_loc (fun l => writeTextElem "video:gallery_loc" l)
  ++ optEvents video.platform (fun p =>
      match p with
      | .allow platforms =>
        relationshipElem "video:platform" "allow"
          (String.intercalate " " (platforms.map VideoPlatform.asStr))
      | .deny platforms =>
        relationshipElem "video:platform" "deny"
          (String.intercalate " " (platforms.map VideoPlatform.asStr)))
  ++ listEvents video.prices (fun price =>
      [.start "video:price"
        ([("currency", price.currency)]
          ++ (match price.resolution with
              | some r => [("resolution", r)]
              | none => [])
          ++ (match price.type_ with
              | some t => [("type", t)]
              | none => [])),
       .text (qxEscape (X.fmtF price.amount)),
       .endTag "video:price"])
  ++ optEvents video.requires_subscription (fun r =>
      writeTextElem "video:requires_subscription" r.asStr)
  ++ optEvents video.uploader (fun uploader =>
      match uploader.info_url with
      | some info =>
        [.start "video:uploader" [("info", info)],
         .text (qxEscape uploader.name),
         .endTag "video:uploader"]
      | none => writeTextElem "video:uploader" uploader.name)
  ++ optEvents video.live (fun l => writeTextElem "video:live" l.asStr)
  ++ [.endTag "video:video"]

/-- `XmlWriter::write_url_with_videos`: only `loc` and `lastmod` of the
page entry are written before the video blocks. -/
def writeUrlWithVideosEvents (X : Externals F) (e : UrlWithVideos F) : List XmlEvent :=
  [.start "url" []]
  ++ writeTextElem "loc" e.url.loc
  ++ optEvents e.url.lastmod (fun l => writeTextElem "lastmod" l)
  ++ listEvents e.videos (writeVideoEntryEvents X)
  ++ [.endTag "url"]

/-- `XmlWriter::write_video_sitemap`: the video namespace is pushed
unconditionally. -/
def writeVideoSitemapEvents (X : Externals F) (entries : List (UrlWithVideos F)) :
    List XmlEvent :=
  [.decl, .start "urlset" [("xmlns", sitemapNS), ("xmlns:video", videoNS)]]
  ++ listEvents entries (writeUrlWithVideosEvents X)
  ++ [.endTag "urlset"]

/-- The `news:news` block, written identically by
`XmlWriter::write_news_sitemap` (lines 404-433) and
`XmlWriter::write_combined_sitemap` (lines 505-535). -/
def writeNewsBlockEvents (news : NewsEntry) : List XmlEvent :=
  [.start "news:news" [], .start "news:publication" []]
  ++ writeTextElem "news:name" news.publication.name
  ++ writeTextElem "news:language" news.publication.language
  ++ [.endTag "news:publication"]
  ++ writeTextElem "news:publication_date" news.publication_date
  ++ writeTextElem "news:title" news.title
  ++ optEvents news.keywords (fun k => writeTextElem "news:keywords" k)
  ++ optEvents news.stock_tickers (fun t => writeTextElem "news:stock_tickers" t)
  ++ [.endTag "news:news"]

/-- `XmlWriter::write_news_sitemap`: the news namespace is pushed
unconditionally; each entry gets `loc` then the news block. -/
def writeNewsSitemapEvents (entries : List (UrlWithNews F)) : List XmlEvent :=
  [.decl, .start "urlset" [("xmlns", sitemapNS), ("xmlns:news", newsNS)]]
  ++ listEvents entries (fun e =>
      [.start "url" []]
      ++ writeTextElem "loc" e.url.loc
      ++ writeNewsBlockEvents e.news
      ++ [.endTag "url"])
  ++ [.endTag "urlset"]

/-- The root attributes of `XmlWriter::write_combined_sitemap`: base
namespace always, each extension namespace only when some entry uses it
(the `needs_image` / `needs_video` / `needs_news` scan). -/
def combinedRootAttrs (entries : List (UrlWithExtensions F)) : List (String × String) :=
  [("xmlns", sitemapNS)]
  ++ (if entries.any (fun e => !e.images.isEmpty) then [("xmlns:image", imageNS)] else [])
  ++ (if entries.any (fun e => !e.videos.isEmpty) then [("xmlns:video", videoNS)] else [])
  ++ (if entries.any (fun e => e.news.isSome) then [("xmlns:news", newsNS)] else [])

/-- The per-entry body of `XmlWriter::write_combined_sitemap`. -/
def writeUrlWithExtensionsEvents (X : Externals F) (e : UrlWithExtensions F) : List XmlEvent :=
  [.start "url" []]
  ++ writeTextElem "loc" e.url.loc
  ++ optEvents e.url.lastmod (fun l => writeTextElem "lastmod" l)
  ++ optEvents e.url.changefreq (fun c => writeTextElem "changefreq" c.asStr)
  ++ optEvents e.url.priority (fun p => writeTextElem "priority" (X.fmtF p))
  ++ listEvents e.images writeImageEntryEvents
  ++ listEvents e.videos (writeVideoEntryEvents X)
  ++ optEvents e.news writeNewsBlockEvents
  ++ [.endTag "url"]

/-- `XmlWriter::write_combined_sitemap` -/
def writeCombinedSitemapEvents (X : Externals F) (entries : List (UrlWithExtensions F)) :
    List XmlEvent :=
  [.decl, .start "urlset" (combinedRootAttrs entries)]
  ++ listEvents entries (writeUrlWithExtensionsEvents X)
  ++ [.endTag "urlset"]

/-- One `sitemap` element of `XmlWriter::write_sitemap_index`. -/
def writeIndexEntryEvents (e : SitemapIndexEntry) : List XmlEvent :=
  [.start "sitemap" []]
  ++ writeTextElem "loc" e.loc
  ++ optEvents e.lastmod (fun l => writeTextElem "lastmod" l)
  ++ [.endTag "sitemap"]

/-- `XmlWriter::write_sitemap_index` -/
def writeSitemapIndexEvents (entries : List SitemapIndexEntry) : List XmlEvent :=
  [.decl, .start "sitemapindex" [("xmlns", sitemapNS)]]
  ++ listEvents entries writeIndexEntryEvents
  ++ [.endTag "sitemapindex"]

/-! ## Text serialization (quick-xml `Writer::new_with_indent(_, b' ', 2)`)

The indenting writer: before every non-text event a newline plus the
current indentation is written, except at the very beginning and directly
after a text event; a start tag grows the indentation after being written,
an end tag shrinks it before. -/

/-- Serializer state: current nesting level and the should-line-break
flag (false initially and after text). -/
structure SState where
  level : Nat
  slb : Bool
deriving DecidableEq, Repr

/-- Indentation: two spaces per level. -/
def indentStr (level : Nat) : String := String.mk (List.replicate (2 * level) ' ')

/-- `<?xml version="1.0" encoding="UTF-8"?>` from
`BytesDecl::new("1.0", Some("UTF-8"), None)`. -/
def declText : String := "<?xml version=\"1.0\" encoding=\"UTF-8\"?>"

/-- Attribute serialization: ` key="value"` for each attribute (the
attribute values of this crate contain no characters needing escape). -/
def attrsText (attrs : List (String × String)) : String :=
  attrs.foldl (fun acc kv => acc ++ " " ++ kv.1 ++ "=\"" ++ kv.2 ++ "\"") ""

/-- The bytes one event contributes, given the serializer state. -/
def eventText (st : SState) : XmlEvent → String
  | .decl => (if st.slb then "\n" ++ indentStr st.level else "") ++ declText
  | .start name attrs =>
    (if st.slb then "\n" ++ indentStr st.level else "") ++ "<" ++ name ++ attrsText attrs ++ ">"
  | .text raw => raw
  | .endTag name =>
    (if st.slb then "\n" ++ indentStr (st.level - 1) else "") ++ "</" ++ name ++ ">"
  | .eof => ""

/-- The serializer state after one event. -/
def nextSt (st : SState) : XmlEvent → SState
  | .decl => { level := st.level, slb := true }
  | .start _ _ => { level := st.level + 1, slb := true }
  | .text _ => { level := st.level, slb := false }
  | .endTag _ => { level := st.level - 1, slb := true }
  | .eof => st

/-- Serialize an event list from a given state. -/
def serializeFrom (st : SState) : List XmlEvent → String
  | [] => ""
  | e :: rest => eventText st e ++ serializeFrom (nextSt st e) rest

/-- Initial serializer state of a fresh `XmlWriter`. -/
def initSt : SState := { level := 0, slb := false }

/-- `SitemapBuilder`'s rendered document text. -/
def renderSitemap (X : Externals F) (entries : List (UrlEntry F)) : String :=
  serializeFrom initSt (writeSitemapEvents X entries)

/-- `SitemapIndexBuilder`'s rendered document text. -/
def renderSitemapIndex (entries : List SitemapIndexEntry) : String :=
  serializeFrom initSt (writeSitemapIndexEvents entries)

/-! ## Parser (`parser.rs`)

`SitemapParser::parse_reader` consumes the reader's event stream. The
reader is configured with `trim_text(true)`: `transport` turns the
writer's event list into the stream such a reader yields (text trimmed,
whitespace-only text dropped, no events for indentation). -/

/-- The reader-side event stream of a document produced from the given
writer events: text content is trimmed and whitespace-only text yields no
event. -/
def transport (l : List XmlEvent) : List XmlEvent :=
  l.filterMap (fun e =>
    match e with
    | .text raw => if xmlTrim raw = "" then none else some (.text (xmlTrim raw))
    | other => some other)

/-- The fresh `UrlEntry` created on a `url` start tag. -/
def emptyUrlEntry : UrlEntry F :=
  { loc := "", lastmod := none, changefreq := none, priority := none }

/-- The `match text.as_str()` of the parser's changefreq branch. -/
def parseChangeFreq (text : String) : Option ChangeFreq :=
  if text = "always" then some .always
  else if text = "hourly" then some .hourly
  else if text = "daily" then some .daily
  else if text = "weekly" then some .weekly
  else if text = "monthly" then some .monthly
  else if text = "yearly" then some .yearly
  else if text = "never" then some .never
  else none

/-- Parser loop state: accumulated entries, the in-progress entry, the
most recently opened element name. -/
structure PState (F : Type) where
  entries : List (UrlEntry F)
  current_url : Option (UrlEntry F)
  current_element : String

/-- One iteration of `SitemapParser::parse_reader`'s event loop. -/
def ppStep (X : Externals F) (st : PState F) : XmlEvent → Except (Err F) (PState F)
  | .decl => .ok st
  | .start name _ =>
    .ok { st with
          current_url := if name = "url" then some emptyUrlEntry else st.current_url,
          current_element := name }
  | .text raw =>
    let text := unescape raw
    match st.current_url with
    | none => .ok st
    | some url =>
      if st.current_element = "loc" then
        .ok { st with current_url := some { url with loc := text } }
      else if st.current_element = "lastmod" then
        .ok { st with current_url := some { url with lastmod := some text } }
      else if st.current_element = "changefreq" then
        match parseChangeFreq text with
        | some cf => .ok { st with current_url := some { url with changefreq := some cf } }
        | none => .error (.invalidChangeFreq text)
      else if st.current_element = "priority" then
        match X.parseF text with
        | some p => .ok { st with current_url := some { url with priority := some p } }
        | none => .error (.validation ("Invalid priority: " ++ text))
      else .ok st
  | .endTag name =>
    if name = "url" then
      match st.current_url with
      | some url => .ok { st with entries := st.entries ++ [url], current_url := none }
      | none => .ok st
    else .ok st
  | .eof => .ok st

/-- The parser loop: events until the list ends or an `Eof` event is
read (the reader yields `Eof` at end of input). -/
def parseEventsAux (X : Externals F) (st : PState F) :
    List XmlEvent → Except (Err F) (List (UrlEntry F))
  | [] => .ok st.entries
  | .eof :: _ => .ok st.entries
  | e :: rest => do
    let st' ← ppStep X st e
    parseEventsAux X st' rest

/-- `SitemapParser::parse_reader` (plain sitemaps), on a reader event
stream. -/
def parsePlain (X : Externals F) (events : List XmlEvent) :
    Except (Err F) (List (UrlEntry F)) :=
  parseEventsAux X { entries := [], current_url := none, current_element := "" } events

/-! ## Builders (`builder.rs`)

Each builder validates (unless the toggle is off), renders, and — only
when the toggle is on — size-checks the rendered text. -/

/-- The per-entry body of a builder's `for entry in &self.entries` check
loop, short-circuiting on the first failure. -/
def checkAll {α : Type} (f : α → Except (Err F) Unit) : List α → Except (Err F) Unit
  | [] => .ok ()
  | x :: xs => do
    f x
    checkAll f xs

/-- The `if let Some(x) = o { check(x)? }` pattern. -/
def optCheck {α : Type} (o : Option α) (f : α → Except (Err F) Unit) : Except (Err F) Unit :=
  match o with
  | some x => f x
  | none => .ok ()

/-- The per-entry checks of `SitemapBuilder::validate_entries`. -/
def sitemapEntryCheck (X : Externals F) (e : UrlEntry F) : Except (Err F) Unit := do
  validateUrl X e.loc
  optCheck e.lastmod validateDate
  optCheck e.priority (validatePriority X)

/-- `SitemapBuilder::validate_entries` -/
def sitemapValidateEntries (X : Externals F) (validate : Bool) (entries : List (UrlEntry F)) :
    Except (Err F) Unit :=
  if !validate then .ok ()
  else do
    validateUrlCount entries.length
    checkAll (sitemapEntryCheck X) entries

/-- `SitemapBuilder::build`: validate entries, render, and size-check the
rendered text only when validation is enabled. -/
def sitemapBuild (X : Externals F) (validate : Bool) (entries : List (UrlEntry F)) :
    Except (Err F) String := do
  sitemapValidateEntries X validate entries
  let xml := renderSitemap X entries
  if validate then validateSize (rustLen xml) else pure ()
  pure xml

/-- The per-entry checks of `SitemapIndexBuilder::validate_entries`. -/
def indexEntryCheck (X : Externals F) (e : SitemapIndexEntry) : Except (Err F) Unit := do
  validateUrl X e.loc
  optCheck e.lastmod validateDate

/-- `SitemapIndexBuilder::validate_entries`: per-entry checks only — the
index builder performs no entry-count check. -/
def indexValidateEntries (X : Externals F) (validate : Bool)
    (entries : List SitemapIndexEntry) : Except (Err F) Unit :=
  if !validate then .ok ()
  else checkAll (indexEntryCheck X) entries

/-- `SitemapIndexBuilder::build` -/
def sitemapIndexBuild (X : Externals F) (validate : Bool)
    (entries : List SitemapIndexEntry) : Except (Err F) String := do
  indexValidateEntries X validate entries
  let xml := renderSitemapIndex entries
  if validate then validateSize (rustLen xml) else pure ()
  pure xml

/-- The per-video checks of `CombinedSitemapBuilder::validate_entries`. -/
def combinedVideoCheck (X : Externals F) (video : VideoEntry F) : Except (Err F) Unit := do
  validateVideoTitle video.title
  validateVideoDescription video.description
  optCheck video.duration validateVideoDuration
  optCheck video.rating (validateVideoRating X)

/-- The per-news checks of `CombinedSitemapBuilder::validate_entries`. -/
def combinedNewsCheck (news : NewsEntry) : Except (Err F) Unit := do
  validateDate news.publication_date
  validateLanguageCode news.publication.language
  optCheck news.stock_tickers validateStockTickers

/-- The per-entry checks of `CombinedSitemapBuilder::validate_entries`. -/
def combinedEntryCheck (X : Externals F) (e : UrlWithExtensions F) : Except (Err F) Unit := do
  validateUrl X e.url.loc
  optCheck e.url.lastmod validateDate
  optCheck e.url.priority (validatePriority X)
  checkAll (combinedVideoCheck X) e.videos
  optCheck e.news combinedNewsCheck

/-- `CombinedSitemapBuilder::validate_entries`: the news count ceiling
(1,000) applies when any entry carries news, the standard ceiling
(50,000) otherwise; then the per-entry checks in order. -/
def combinedValidateEntries (X : Externals F) (validate : Bool)
    (entries : List (UrlWithExtensions F)) : Except (Err F) Unit :=
  if !validate then .ok ()
  else do
    if entries.any (fun e => e.news.isSome) then
      validateNewsUrlCount entries.length
    else
      validateUrlCount entries.length
    checkAll (combinedEntryCheck X) entries

/-! ## Remaining definitions: observation helpers and concrete externals -/

/-- `true` when the pattern occurs as a contiguous subsequence. -/
def startsWithSeq (pat l : List Char) : Bool := l.take pat.length = pat

/-- Substring search (for stating what the rendered document contains). -/
def containsSeq (pat : List Char) : List Char → Bool
  | [] => pat.isEmpty
  | c :: rest => startsWithSeq pat (c :: rest) || containsSeq pat rest

/-- `Except.isOk` -/
def isOkE {ε α : Type} : Except ε α → Bool
  | .ok _ => true
  | .error _ => false

/-- The attributes of the first start tag of an event list (the document
root, since the declaration carries no attributes). -/
def firstStartAttrs : List XmlEvent → List (String × String)
  | [] => []
  | .start _ attrs :: _ => attrs
  | _ :: rest => firstStartAttrs rest

/-- The names of the start tags at the top nesting level of an element
body, in order of occurrence (`d` is the current depth). -/
def topNamesAux : Nat → List XmlEvent → List String
  | _, [] => []
  | 0, .start n _ :: rest => n :: topNamesAux 1 rest
  | d + 1, .start _ _ :: rest => topNamesAux (d + 2) rest
  | d, .endTag _ :: rest => topNamesAux (d - 1) rest
  | d, _ :: rest => topNamesAux d rest

/-- The direct child names of an element body. -/
def topNames (l : List XmlEvent) : List String := topNamesAux 0 l

/-- The per-entry body (children of the `url` element) of each
entry-bearing writer, for stating child order. -/
def urlEntryBody (X : Externals F) (e : UrlEntry F) : List XmlEvent :=
  writeTextElem "loc" e.loc
  ++ optEvents e.lastmod (fun l => writeTextElem "lastmod" l)
  ++ optEvents e.changefreq (fun c => writeTextElem "changefreq" c.asStr)
  ++ optEvents e.priority (fun p => writeTextElem "priority" (X.fmtF p))

/-- The list `["name"]` when the option is set, `[]` otherwise (for
stating which optional children appear). -/
def optName {α : Type} (o : Option α) (name : String) : List String :=
  match o with
  | some _ => [name]
  | none => []

/-- The per-entry body of `XmlWriter::write_url_with_images` (children of
its `url` element). -/
def urlWithImagesBody (X : Externals F) (e : UrlWithImages F) : List XmlEvent :=
  writeTextElem "loc" e.url.loc
  ++ optEvents e.url.lastmod (fun l => writeTextElem "lastmod" l)
  ++ optEvents e.url.changefreq (fun c => writeTextElem "changefreq" c.asStr)
  ++ optEvents e.url.priority (fun p => writeTextElem "priority" (X.fmtF p))
  ++ listEvents e.images writeImageEntryEvents

/-- The per-entry body of `XmlWriter::write_url_with_videos` (children of
its `url` element): only `loc` and `lastmod` precede the video blocks. -/
def urlWithVideosBody (X : Externals F) (e : UrlWithVideos F) : List XmlEvent :=
  writeTextElem "loc" e.url.loc
  ++ optEvents e.url.lastmod (fun l => writeTextElem "lastmod" l)
  ++ listEvents e.videos (writeVideoEntryEvents X)

/-- The per-entry body of `XmlWriter::write_combined_sitemap` (children of
its `url` element). -/
def urlWithExtensionsBody (X : Externals F) (e : UrlWithExtensions F) : List XmlEvent :=
  writeTextElem "loc" e.url.loc
  ++ optEvents e.url.lastmod (fun l => writeTextElem "lastmod" l)
  ++ optEvents e.url.changefreq (fun c => writeTextElem "changefreq" c.asStr)
  ++ optEvents e.url.priority (fun p => writeTextElem "priority" (X.fmtF p))
  ++ listEvents e.images writeImageEntryEvents
  ++ listEvents e.videos (writeVideoEntryEvents X)
  ++ optEvents e.news writeNewsBlockEvents

/-- The expected direct child names contributed by a `UrlEntry`'s four
fields, in the writer's fixed order, present iff set. -/
def plainChildNames (e : UrlEntry F) : List String :=
  ["loc"] ++ optName e.lastmod "lastmod" ++ optName e.changefreq "changefreq"
    ++ optName e.priority "priority"

/-- A balanced block: it contributes nothing at nesting depth at least one
and restores the depth. -/
def SkipsDeep (p : List XmlEvent) : Prop :=
  ∀ d rest, topNamesAux (d + 1) (p ++ rest) = topNamesAux (d + 1) rest

/-- A block that contributes exactly the direct child names `ns`. -/
def TopAdds (p : List XmlEvent) (ns : List String) : Prop :=
  ∀ rest, topNamesAux 0 (p ++ rest) = ns ++ topNamesAux 0 rest

/-! ## Concrete externals for witnesses and counterexamples

The claims below are proved for every instantiation of `Externals`; these
concrete values are used only to witness them. `urlOkModel` is a simple
stand-in for the external `url` crate's `Url::parse` success predicate
(scheme, separator, authority). -/

/-- A simple absolute-URL success predicate standing in for the external
`url::Url::parse` in witnesses: an alphabetic scheme, `://`, a nonempty
remainder. -/
def urlOkModel (s : String) : Bool :=
  match rustSplitChar ':' s with
  | scheme :: rest1 :: _ =>
    !scheme.data.isEmpty && scheme.data.all Char.isAlpha
      && (rest1.data.take 2 = ['/', '/']) && decide (2 < rest1.data.length)
  | _ => false

/-- Concrete externals over `Unit` (a degenerate `f32` carrier whose only
value prints as `0.5`). -/
def X0 : Externals Unit :=
  { fmtF := fun _ => "0.5"
    parseF := fun s => if s = "0.5" then some () else none
    urlOk := urlOkModel
    prio01 := fun _ => true
    rating05 := fun _ => true }

/-- A minimal valid combined entry without news (for witnesses). -/
def plainCombinedEntry : UrlWithExtensions Unit :=
  { url := { loc := "http://a", lastmod := none, changefreq := none, priority := none }
    images := []
    videos := []
    news := none }

/-- A minimal valid combined entry carrying news (for witnesses). -/
def newsCombinedEntry : UrlWithExtensions Unit :=
  { url := { loc := "http://a", lastmod := none, changefreq := none, priority := none }
    images := []
    videos := []
    news := some
      { publication := { name := "News", language := "en" }
        publication_date := "2025-11-01"
        title := "Extra"
        keywords := none
        stock_tickers := none } }

/-- The round-trip hypotheses on one entry: text fields survive the XML
transport unchanged and the external float parser inverts the formatter. -/
def RoundTrips (X : Externals F) (e : UrlEntry F) : Prop :=
  cleanText e.loc
  ∧ (∀ l, e.lastmod = some l → cleanText l ∧ l ≠ "")
  ∧ (∀ p, e.priority = some p →
      X.parseF (X.fmtF p) = some p ∧ cleanText (X.fmtF p) ∧ X.fmtF p ≠ "")

/-! ## Basic lemmas -/

theorem ebind_ok {α β : Type} (a : α) (f : α → Except (Err F) β) :
    (Except.ok a >>= f) = f a := rfl

theorem ebind_err {α β : Type} (e : Err F) (f : α → Except (Err F) β) :
    ((Except.error e : Except (Err F) α) >>= f) = .error e := rfl

theorem rustLen_append (s t : String) : rustLen (s ++ t) = rustLen s + rustLen t := by
  simp [rustLen, String.data_append]

theorem rustLen_mk (l : List Char) : rustLen (String.mk l) = (l.map Char.utf8Size).sum := rfl

theorem rustLen_mk_replicate (n : Nat) (c : Char) :
    rustLen (String.mk (List.replicate n c)) = n * c.utf8Size := by
  simp [rustLen_mk, List.map_replicate, List.sum_replicate, smul_eq_mul]

/-- The unfolding equations of `unescapeChars`. -/
theorem unescapeChars_nil : unescapeChars [] = [] := by
  rw [unescapeChars.eq_def]

theorem unescapeChars_cons (c : Char) (rest : List Char) :
    unescapeChars (c :: rest) =
      (if c = '&' then
        if rest.take 4 = ['a', 'm', 'p', ';'] then '&' :: unescapeChars (rest.drop 4)
        else if rest.take 3 = ['l', 't', ';'] then '<' :: unescapeChars (rest.drop 3)
        else if rest.take 3 = ['g', 't', ';'] then '>' :: unescapeChars (rest.drop 3)
        else if rest.take 5 = ['q', 'u', 'o', 't', ';'] then '"' :: unescapeChars (rest.drop 5)
        else if rest.take 5 = ['a', 'p', 'o', 's', ';'] then apos :: unescapeChars (rest.drop 5)
        else c :: unescapeChars rest
      else c :: unescapeChars rest) := by
  rw [unescapeChars.eq_def]

theorem replaceChar_of_not_mem {c : Char} {l : List Char} (rep : List Char)
    (h : c ∉ l) : replaceChar c rep l = l := by
  induction l with
  | nil => rfl
  | cons d t ih =>
    simp only [List.mem_cons, not_or] at h
    have hd : (if d = c then rep else [d]) = [d] := by
      rw [if_neg]
      exact fun hdc => h.1 hdc.symm
    show ((d :: t).map (fun d => if d = c then rep else [d])).flatten = d :: t
    rw [List.map_cons, List.flatten_cons, hd]
    have ht := ih h.2
    rw [replaceChar] at ht
    rw [ht]
    rfl

/-- Unpacked form of `noSpecials`. -/
theorem noSpecials_iff (s : String) :
    noSpecials s = true ↔
      ∀ c ∈ s.data, c ≠ '&' ∧ c ≠ '<' ∧ c ≠ '>' ∧ c ≠ '"' ∧ c ≠ apos := by
  simp [noSpecials, List.all_eq_true, not_or, and_assoc]

theorem escapeXml_of_noSpecials {s : String} (h : noSpecials s = true) :
    escapeXml s = s := by
  rw [noSpecials_iff] at h
  have h1 : replaceChar '&' ampRep s.data = s.data :=
    replaceChar_of_not_mem _ (fun hm => ((h _ hm).1 rfl))
  have h2 : replaceChar '<' ltRep s.data = s.data :=
    replaceChar_of_not_mem _ (fun hm => ((h _ hm).2.1 rfl))
  have h3 : replaceChar '>' gtRep s.data = s.data :=
    replaceChar_of_not_mem _ (fun hm => ((h _ hm).2.2.1 rfl))
  have h4 : replaceChar '"' quotRep s.data = s.data :=
    replaceChar_of_not_mem _ (fun hm => ((h _ hm).2.2.2.1 rfl))
  have h5 : replaceChar apos aposRep s.data = s.data :=
    replaceChar_of_not_mem _ (fun hm => ((h _ hm).2.2.2.2 rfl))
  show String.mk (escapeXmlChars s.data) = s
  rw [escapeXmlChars, h1, h2, h3, h4, h5]

theorem entityOf_of_plain {c : Char} (h : c ≠ '&' ∧ c ≠ '<' ∧ c ≠ '>' ∧ c ≠ '"' ∧ c ≠ apos) :
    entityOf c = [c] := by
  simp [entityOf, h.1, h.2.1, h.2.2.1, h.2.2.2.1, h.2.2.2.2]

theorem qxEscape_of_noSpecials {s : String} (h : noSpecials s = true) :
    qxEscape s = s := by
  rw [noSpecials_iff] at h
  show String.mk (qxEscapeChars s.data) = s
  have : ∀ l, (∀ c ∈ l, c ≠ '&' ∧ c ≠ '<' ∧ c ≠ '>' ∧ c ≠ '"' ∧ c ≠ apos) →
      qxEscapeChars l = l := by
    intro l hl
    induction l with
    | nil => rfl
    | cons d t ih =>
      simp only [List.mem_cons] at hl
      simp [qxEscapeChars, List.flatten, entityOf_of_plain (hl d (Or.inl rfl))] at ih ⊢
      exact ih (fun c hc => hl c (Or.inr hc))
  rw [this s.data h]

theorem unescapeChars_of_noAmp {l : List Char} (h : ∀ c ∈ l, c ≠ '&') :
    unescapeChars l = l := by
  induction l with
  | nil => exact unescapeChars_nil
  | cons c t ih =>
    simp only [List.mem_cons] at h
    rw [unescapeChars_cons, if_neg (h c (Or.inl rfl))]
    rw [ih (fun d hd => h d (Or.inr hd))]

theorem unescape_of_noSpecials {s : String} (h : noSpecials s = true) :
    unescape s = s := by
  rw [noSpecials_iff] at h
  show String.mk (unescapeChars s.data) = s
  rw [unescapeChars_of_noAmp (fun c hc => (h c hc).1)]

/-- quick-xml's reader `unescape` inverts its writer-side `escape`. -/
theorem unescapeChars_qxEscapeChars (l : List Char) :
    unescapeChars (qxEscapeChars l) = l := by
  induction l with
  | nil => exact unescapeChars_nil
  | cons c t ih =>
    have hq : qxEscapeChars (c :: t) = entityOf c ++ qxEscapeChars t := by
      simp [qxEscapeChars]
    rw [hq]
    by_cases h1 : c = '&'
    · subst h1
      rw [entityOf, if_pos rfl, ampRep]
      rw [List.cons_append, unescapeChars_cons]
      simp [List.take_append_eq_append_take, List.drop_append_eq_append_drop, ih]
    · by_cases h2 : c = '<'
      · subst h2
        rw [entityOf, if_neg (by decide), if_pos rfl, ltRep]
        rw [List.cons_append, unescapeChars_cons]
        simp [List.take_append_eq_append_take, List.drop_append_eq_append_drop, ih]
      · by_cases h3 : c = '>'
        · subst h3
          rw [entityOf, if_neg (by decide), if_neg (by decide), if_pos rfl, gtRep]
          rw [List.cons_append, unescapeChars_cons]
          simp [List.take_append_eq_append_take, List.drop_append_eq_append_drop, ih]
        · by_cases h4 : c = '"'
          · subst h4
            rw [entityOf, if_neg (by decide), if_neg (by decide), if_neg (by decide),
              if_pos rfl, quotRep]
            rw [List.cons_append, unescapeChars_cons]
            simp [List.take_append_eq_append_take, List.drop_append_eq_append_drop, ih]
          · by_cases h5 : c = apos
            · subst h5
              rw [entityOf, if_neg (by decide), if_neg (by decide), if_neg (by decide),
                if_neg (by decide), if_pos rfl, aposRep]
              rw [List.cons_append, unescapeChars_cons]
              simp [List.take_append_eq_append_take, List.drop_append_eq_append_drop, ih]
            · rw [entityOf_of_plain ⟨h1, h2, h3, h4, h5⟩]
              rw [List.cons_append, List.nil_append, unescapeChars_cons, if_neg h1]
              rw [ih]

theorem unescape_qxEscape (s : String) : unescape (qxEscape s) = s := by
  show String.mk (unescapeChars (qxEscapeChars s.data)) = s
  rw [unescapeChars_qxEscapeChars]

/-- The raw bytes `write_text_element` puts in the document for content
`t`, after both escaping passes, and what they transport back to. -/
theorem textRaw_of_clean {t : String} (h : cleanText t) :
    qxEscape (escapeXml t) = t := by
  rw [escapeXml_of_noSpecials h.1, qxEscape_of_noSpecials h.1]

theorem transport_append (a b : List XmlEvent) :
    transport (a ++ b) = transport a ++ transport b := by
  simp [transport]

theorem transport_nil : transport ([] : List XmlEvent) = [] := rfl

theorem transport_start (n : String) (a : List (String × String)) (rest : List XmlEvent) :
    transport (.start n a :: rest) = .start n a :: transport rest := rfl

theorem transport_endTag (n : String) (rest : List XmlEvent) :
    transport (.endTag n :: rest) = .endTag n :: transport rest := rfl

theorem transport_decl (rest : List XmlEvent) :
    transport (.decl :: rest) = .decl :: transport rest := rfl

theorem transport_writeTextElem_of_clean {t : String} (name : String)
    (h : cleanText t) (hne : t ≠ "") :
    transport (writeTextElem name t) = [.start name [], .text t, .endTag name] := by
  simp only [writeTextElem, textRaw_of_clean h, transport, List.filterMap]
  rw [h.2]
  simp [hne]

theorem transport_writeTextElem_empty (name : String) :
    transport (writeTextElem name "") = [.start name [], .endTag name] := by
  have htrim : xmlTrim "" = "" := by decide
  have hraw : qxEscape (escapeXml "") = "" := by decide
  simp [writeTextElem, transport, List.filterMap, hraw, htrim]

theorem serializeFrom_append (st : SState) (a b : List XmlEvent) :
    serializeFrom st (a ++ b) = serializeFrom st a ++ serializeFrom (a.foldl nextSt st) b := by
  induction a generalizing st with
  | nil => simp [serializeFrom]
  | cons e t ih => simp [serializeFrom, ih, String.append_assoc]

theorem checkAll_of_forall {α : Type} {f : α → Except (Err F) Unit} {l : List α}
    (h : ∀ x ∈ l, f x = .ok ()) : checkAll f l = .ok () := by
  induction l with
  | nil => rfl
  | cons x t ih =>
    simp only [List.mem_cons] at h
    simp [checkAll, h x (Or.inl rfl), ebind_ok]
    exact ih (fun y hy => h y (Or.inr hy))

/-! ## Parser stepping lemmas -/

theorem parseAux_decl (X : Externals F) (st : PState F) (rest : List XmlEvent) :
    parseEventsAux X st (.decl :: rest) = parseEventsAux X st rest := rfl

theorem parseAux_start (X : Externals F) (st : PState F) (n : String)
    (a : List (String × String)) (rest : List XmlEvent) :
    parseEventsAux X st (.start n a :: rest) =
      parseEventsAux X
        { st with current_url := if n = "url" then some emptyUrlEntry else st.current_url,
                  current_element := n } rest := rfl

theorem parseAux_endTag (X : Externals F) (st : PState F) (n : String)
    (rest : List XmlEvent) :
    parseEventsAux X st (.endTag n :: rest) =
      parseEventsAux X
        (if n = "url" then
          match st.current_url with
          | some url => { st with entries := st.entries ++ [url], current_url := none }
          | none => st
        else st) rest := by
  rcases st with ⟨E, cur, el⟩
  by_cases h : n = "url"
  · subst h
    cases cur <;> simp [parseEventsAux, ppStep, ebind_ok]
  · simp [parseEventsAux, ppStep, h, ebind_ok]

theorem parseAux_nil (X : Externals F) (st : PState F) :
    parseEventsAux X st [] = .ok st.entries := rfl

/-- Processing a transported `loc` text element on a fresh entry. -/
theorem parse_locElem (X : Externals F) (E : List (UrlEntry F)) (el : String)
    (T : String) (hT : cleanText T) (rest : List XmlEvent) :
    parseEventsAux X { entries := E, current_url := some emptyUrlEntry, current_element := el }
        (transport (writeTextElem "loc" T) ++ rest)
      = parseEventsAux X
          { entries := E, current_url := some { emptyUrlEntry with loc := T },
            current_element := "loc" } rest := by
  by_cases h0 : T = ""
  · subst h0
    rw [transport_writeTextElem_empty]
    simp [parseAux_start, parseAux_endTag, emptyUrlEntry]
  · rw [transport_writeTextElem_of_clean _ hT h0]
    rw [List.cons_append, List.cons_append, List.cons_append, parseAux_start]
    simp only [parseEventsAux, ppStep]
    simp [unescape_of_noSpecials hT.1, parseAux_endTag, emptyUrlEntry, ebind_ok]

/-- Processing a transported `lastmod` text element. -/
theorem parse_lmElem (X : Externals F) (E : List (UrlEntry F)) (u : UrlEntry F)
    (el : String) (T : String) (hT : cleanText T) (hne : T ≠ "") (rest : List XmlEvent) :
    parseEventsAux X { entries := E, current_url := some u, current_element := el }
        (transport (writeTextElem "lastmod" T) ++ rest)
      = parseEventsAux X
          { entries := E, current_url := some { u with lastmod := some T },
            current_element := "lastmod" } rest := by
  rw [transport_writeTextElem_of_clean _ hT hne]
  rw [List.cons_append, List.cons_append, List.cons_append, parseAux_start]
  simp only [parseEventsAux, ppStep]
  simp [unescape_of_noSpecials hT.1, parseAux_endTag, ebind_ok]

/-- `ChangeFreq.asStr` values are clean, nonempty, and parse back. -/
theorem changefreq_asStr_clean (cf : ChangeFreq) :
    cleanText cf.asStr ∧ cf.asStr ≠ "" ∧ parseChangeFreq cf.asStr = some cf := by
  cases cf <;> exact ⟨⟨by decide, by decide⟩, by decide, rfl⟩

/-- Processing a transported `changefreq` text element. -/
theorem parse_cfElem (X : Externals F) (E : List (UrlEntry F)) (u : UrlEntry F)
    (el : String) (cf : ChangeFreq) (rest : List XmlEvent) :
    parseEventsAux X { entries := E, current_url := some u, current_element := el }
        (transport (writeTextElem "changefreq" cf.asStr) ++ rest)
      = parseEventsAux X
          { entries := E, current_url := some { u with changefreq := some cf },
            current_element := "changefreq" } rest := by
  obtain ⟨hclean, hne, hparse⟩ := changefreq_asStr_clean cf
  rw [transport_writeTextElem_of_clean _ hclean hne]
  rw [List.cons_append, List.cons_append, List.cons_append, parseAux_start]
  simp only [parseEventsAux, ppStep]
  simp [unescape_of_noSpecials hclean.1, hparse, parseAux_endTag, ebind_ok]

/-- Processing a transported `priority` text element. -/
theorem parse_prElem (X : Externals F) (E : List (UrlEntry F)) (u : UrlEntry F)
    (el : String) (p : F) (hp : X.parseF (X.fmtF p) = some p)
    (hc : cleanText (X.fmtF p)) (hne : X.fmtF p ≠ "") (rest : List XmlEvent) :
    parseEventsAux X { entries := E, current_url := some u, current_element := el }
        (transport (writeTextElem "priority" (X.fmtF p)) ++ rest)
      = parseEventsAux X
          { entries := E, current_url := some { u with priority := some p },
            current_element := "priority" } rest := by
  rw [transport_writeTextElem_of_clean _ hc hne]
  rw [List.cons_append, List.cons_append, List.cons_append, parseAux_start]
  simp only [parseEventsAux, ppStep]
  simp [unescape_of_noSpecials hc.1, hp, parseAux_endTag, ebind_ok]

/-- Processing the closing `url` tag pushes the in-progress entry. -/
theorem parse_endUrl (X : Externals F) (E : List (UrlEntry F)) (u : UrlEntry F)
    (el : String) (rest : List XmlEvent) :
    parseEventsAux X { entries := E, current_url := some u, current_element := el }
        (transport [XmlEvent.endTag "url"] ++ rest)
      = parseEventsAux X { entries := E ++ [u], current_url := none, current_element := el }
          rest := by
  rw [transport_endTag, transport_nil, List.cons_append, List.nil_append, parseAux_endTag]
  simp

/-- Processing one transported `url` element appends exactly that entry. -/
theorem parse_urlBlock (X : Externals F) (E : List (UrlEntry F)) (el : String)
    (e : UrlEntry F) (he : RoundTrips X e) (rest : List XmlEvent) :
    ∃ el', parseEventsAux X { entries := E, current_url := none, current_element := el }
        (transport (writeUrlEntryEvents X e) ++ rest)
      = parseEventsAux X { entries := E ++ [e], current_url := none, current_element := el' }
          rest := by
  obtain ⟨hloc, hlm, hpr⟩ := he
  obtain ⟨loc, lm, cf, pr⟩ := e
  rw [writeUrlEntryEvents]
  simp only [List.cons_append, List.nil_append, List.append_assoc]
  rw [transport_start, List.cons_append, parseAux_start, if_pos rfl]
  simp only [transport_append, List.append_assoc]
  rw [parse_locElem X E _ loc hloc]
  rcases lm with _ | l <;> rcases cf with _ | c <;> rcases pr with _ | p
  · refine ⟨"loc", ?_⟩
    simp only [optEvents, transport_nil, List.nil_append]
    rw [parse_endUrl]
    rfl
  · obtain ⟨hp1, hp2, hp3⟩ := hpr p rfl
    refine ⟨"priority", ?_⟩
    simp only [optEvents, transport_nil, List.nil_append]
    rw [parse_prElem X E _ _ p hp1 hp2 hp3, parse_endUrl]
    rfl
  · refine ⟨"changefreq", ?_⟩
    simp only [optEvents, transport_nil, List.nil_append]
    rw [parse_cfElem X E _ _ c, parse_endUrl]
    rfl
  · obtain ⟨hp1, hp2, hp3⟩ := hpr p rfl
    refine ⟨"priority", ?_⟩
    simp only [optEvents, transport_nil, List.nil_append]
    rw [parse_cfElem X E _ _ c, parse_prElem X E _ _ p hp1 hp2 hp3, parse_endUrl]
    rfl
  · obtain ⟨hl1, hl2⟩ := hlm l rfl
    refine ⟨"lastmod", ?_⟩
    simp only [optEvents, transport_nil, List.nil_append]
    rw [parse_lmElem X E _ _ l hl1 hl2, parse_endUrl]
    rfl
  · obtain ⟨hl1, hl2⟩ := hlm l rfl
    obtain ⟨hp1, hp2, hp3⟩ := hpr p rfl
    refine ⟨"priority", ?_⟩
    simp only [optEvents, transport_nil, List.nil_append]
    rw [parse_lmElem X E _ _ l hl1 hl2, parse_prElem X E _ _ p hp1 hp2 hp3, parse_endUrl]
    rfl
  · obtain ⟨hl1, hl2⟩ := hlm l rfl
    refine ⟨"changefreq", ?_⟩
    simp only [optEvents, transport_nil, List.nil_append]
    rw [parse_lmElem X E _ _ l hl1 hl2, parse_cfElem X E _ _ c, parse_endUrl]
    rfl
  · obtain ⟨hl1, hl2⟩ := hlm l rfl
    obtain ⟨hp1, hp2, hp3⟩ := hpr p rfl
    refine ⟨"priority", ?_⟩
    simp only [optEvents, transport_nil, List.nil_append]
    rw [parse_lmElem X E _ _ l hl1 hl2, parse_cfElem X E _ _ c,
      parse_prElem X E _ _ p hp1 hp2 hp3, parse_endUrl]

/-- Processing the transported body of a plain sitemap accumulates every
entry in order. -/
theorem parse_sitemapBody (X : Externals F) (entries : List (UrlEntry F))
    (hent : ∀ e ∈ entries, RoundTrips X e) :
    ∀ (E : List (UrlEntry F)) (el : String),
      parseEventsAux X { entries := E, current_url := none, current_element := el }
          (transport (listEvents entries (writeUrlEntryEvents X)) ++ [.endTag "urlset"])
        = .ok (E ++ entries) := by
  induction entries with
  | nil =>
    intro E el
    rw [show listEvents ([] : List (UrlEntry F)) (writeUrlEntryEvents X) = [] from rfl]
    rw [show transport ([] : List XmlEvent) = [] from rfl, List.nil_append]
    simp [parseAux_endTag, parseAux_nil]
  | cons e t ih =>
    intro E el
    simp only [List.mem_cons] at hent
    have hlist : listEvents (e :: t) (writeUrlEntryEvents X)
        = writeUrlEntryEvents X e ++ listEvents t (writeUrlEntryEvents X) := by
      simp [listEvents]
    rw [hlist, transport_append, List.append_assoc]
    obtain ⟨el', hel⟩ := parse_urlBlock X E el e (hent e (Or.inl rfl))
      (transport (listEvents t (writeUrlEntryEvents X)) ++ [.endTag "urlset"])
    rw [hel, ih (fun x hx => hent x (Or.inr hx)) (E ++ [e]) el']
    simp

theorem transport_text_keep {raw : String} (h : xmlTrim raw ≠ "") (rest : List XmlEvent) :
    transport (.text raw :: rest) = .text (xmlTrim raw) :: transport rest := by
  simp [transport, h]

theorem parseAux_text (X : Externals F) (st : PState F) (raw : String)
    (rest : List XmlEvent) :
    parseEventsAux X st (.text raw :: rest)
      = ppStep X st (.text raw) >>= fun st' => parseEventsAux X st' rest := rfl

/-- Parsing the rendered document of one entry that populates only `loc`
recovers the once-escaped `loc` (the document itself carries the
twice-escaped bytes). -/
theorem parsePlain_single_loc (X : Externals F) (L : String)
    (htrim : xmlTrim (qxEscape (escapeXml L)) = qxEscape (escapeXml L))
    (hne : qxEscape (escapeXml L) ≠ "") :
    parsePlain X (transport (writeSitemapEvents X
        [{ loc := L, lastmod := none, changefreq := none, priority := none }]))
      = .ok [{ loc := escapeXml L, lastmod := none, changefreq := none,
               priority := none }] := by
  have hne' : xmlTrim (qxEscape (escapeXml L)) ≠ "" := by rw [htrim]; exact hne
  simp only [writeSitemapEvents, listEvents, List.map, List.flatten, writeUrlEntryEvents,
    writeTextElem, optEvents, List.cons_append, List.nil_append, List.append_assoc,
    List.append_nil]
  rw [transport_decl, transport_start, transport_start, transport_start,
    transport_text_keep hne', htrim, transport_endTag, transport_endTag, transport_endTag,
    transport_nil]
  rw [parsePlain, parseAux_decl, parseAux_start, if_neg (by decide), parseAux_start,
    if_pos rfl, parseAux_start, if_neg (by decide), parseAux_text]
  simp only [ppStep, unescape_qxEscape]
  simp only [if_true, ebind_ok]
  rw [parseAux_endTag, if_neg (by decide), parseAux_endTag, if_pos rfl]
  rw [parseAux_endTag, if_neg (by decide), parseAux_nil]
  simp [emptyUrlEntry]

theorem all_replicate_of {α : Type} {p : α → Bool} {a : α} (h : p a = true) (n : Nat) :
    (List.replicate n a).all p = true := by
  induction n with
  | zero => rfl
  | succ n ih => simp [List.replicate_succ, h, ih]

theorem any_replicate_of {α : Type} {p : α → Bool} {a : α} (h : p a = false) (n : Nat) :
    (List.replicate n a).any p = false := by
  induction n with
  | zero => rfl
  | succ n ih => simp [List.replicate_succ, h, ih]

theorem noSpecials_replicate_a (n : Nat) :
    noSpecials (String.mk (List.replicate n 'a')) = true := by
  rw [noSpecials]
  exact all_replicate_of (by decide) n

theorem checkAll_replicate {α : Type} {f : α → Except (Err F) Unit} {a : α}
    (h : f a = .ok ()) (n : Nat) : checkAll f (List.replicate n a) = .ok () := by
  refine checkAll_of_forall ?_
  intro x hx
  rw [List.eq_of_mem_replicate hx]
  exact h

/-! ## Claims -/

/-- C1 (amended): for every sequence of plain `UrlEntry` values whose populated
fields survive the XML transport unchanged — `loc`, `lastmod` and the formatted
priority free of the five XML-reserved characters and of leading/trailing
whitespace, `lastmod` and the formatted priority nonempty, and the external
float parser inverting the formatter — parsing the rendered plain sitemap
returns exactly the input sequence, field for field. (The original claim,
quantified over all protocol-legal values, fails when a text field contains an
XML-reserved character: see the counterexample.) -/
theorem C1_plain_roundtrip {F : Type} (X : Externals F) (entries : List (UrlEntry F))
    (hent : ∀ e ∈ entries, RoundTrips X e) :
    parsePlain X (transport (writeSitemapEvents X entries)) = .ok entries := by
  rw [writeSitemapEvents]
  simp only [List.cons_append, List.nil_append, List.append_assoc]
  rw [transport_decl, transport_start, transport_append, transport_endTag, transport_nil]
  rw [parsePlain, parseAux_decl, parseAux_start, if_neg (by decide)]
  have h := parse_sitemapBody X entries hent [] "urlset"
  rw [List.nil_append] at h
  exact h

/-- C1 witness: a concrete entry populating all four fields round-trips. -/
theorem C1_plain_roundtrip_witness :
    parsePlain X0 (transport (writeSitemapEvents X0
      [{ loc := "https://example.com/", lastmod := some "2025-11-01",
         changefreq := some .daily, priority := some () }]))
      = .ok [{ loc := "https://example.com/", lastmod := some "2025-11-01",
               changefreq := some .daily, priority := some () }] := by
  apply C1_plain_roundtrip
  intro e he
  simp only [List.mem_singleton] at he
  subst he
  refine ⟨⟨by decide, by decide⟩, ?_, ?_⟩
  · intro l hl
    simp only [Option.some.injEq] at hl
    subst hl
    exact ⟨⟨by decide, by decide⟩, by decide⟩
  · intro p hp
    exact ⟨rfl, ⟨(by decide : noSpecials "0.5" = true), (by decide : xmlTrim "0.5" = "0.5")⟩,
      (by decide : ("0.5" : String) ≠ "")⟩

/-- C1 counterexample: an entry whose `loc` is the protocol-legal URL
`https://example.com/?a=1&b=2` (it passes `validate_url`) does not round-trip:
parsing the rendered document yields the once-escaped `loc`
`https://example.com/?a=1&amp;b=2`. -/
theorem C1_plain_roundtrip_counterexample :
    validateUrl X0 "https://example.com/?a=1&b=2" = .ok ()
    ∧ parsePlain X0 (transport (writeSitemapEvents X0
        [{ loc := "https://example.com/?a=1&b=2", lastmod := none, changefreq := none,
           priority := none }]))
      = .ok [{ loc := "https://example.com/?a=1&amp;b=2", lastmod := none,
               changefreq := none, priority := none }]
    ∧ ("https://example.com/?a=1&amp;b=2" : String) ≠ "https://example.com/?a=1&b=2" := by
  refine ⟨by decide, ?_, by decide⟩
  rw [parsePlain_single_loc X0 "https://example.com/?a=1&b=2" (by decide) (by decide)]
  rw [show escapeXml "https://example.com/?a=1&b=2" = "https://example.com/?a=1&amp;b=2"
    from by decide]

/-- C2 (code bug): the writer escapes twice, not once — `escape_xml` replaces
the bare ampersand by `&amp;`, and `BytesText::new` escapes that again, so the
rendered document contains `&amp;amp;` in place of a bare `&`, and re-parsing
recovers the once-escaped `&amp;` form, not the original literal ampersand. -/
theorem C2_escape_once_code_bug :
    escapeXml "https://example.com/page?foo=bar&baz=qux"
        = "https://example.com/page?foo=bar&amp;baz=qux"
    ∧ qxEscape (escapeXml "https://example.com/page?foo=bar&baz=qux")
        = "https://example.com/page?foo=bar&amp;amp;baz=qux"
    ∧ containsSeq "&amp;amp;".data (renderSitemap X0
        [{ loc := "https://example.com/page?foo=bar&baz=qux", lastmod := none,
           changefreq := none, priority := none }]).data = true
    ∧ parsePlain X0 (transport (writeSitemapEvents X0
        [{ loc := "https://example.com/page?foo=bar&baz=qux", lastmod := none,
           changefreq := none, priority := none }]))
      = .ok [{ loc := "https://example.com/page?foo=bar&amp;baz=qux", lastmod := none,
               changefreq := none, priority := none }] := by
  refine ⟨by decide, by decide, by decide, ?_⟩
  rw [parsePlain_single_loc X0 "https://example.com/page?foo=bar&baz=qux"
    (by decide) (by decide)]
  rw [show escapeXml "https://example.com/page?foo=bar&baz=qux"
      = "https://example.com/page?foo=bar&amp;baz=qux" from by decide]

/-- C10 (confirmed): the parser does not require `loc`: on a well-formed
document whose `url` element has no children at all, parsing succeeds and
returns one entry with empty `loc` and all optional fields absent — the entry
is appended on the closing `url` tag regardless of which fields were
populated. -/
theorem C10_entry_appended_without_loc :
    parsePlain X0 [.decl, .start "urlset" [("xmlns", sitemapNS)], .start "url" [],
        .endTag "url", .endTag "urlset", .eof]
      = .ok [{ loc := "", lastmod := none, changefreq := none, priority := none }] := by
  decide

/-- C7 (confirmed): for every string, `validate_url` returns `UrlTooLong` when
the byte length exceeds 2048, regardless of parseability (the length check
runs before the parse attempt); for length at most 2048 it returns
`InvalidUrl` exactly when the external parse fails, and succeeds otherwise. -/
theorem C7_validate_url_order {F : Type} (X : Externals F) (s : String) :
    (2048 < rustLen s → validateUrl X s = .error (.urlTooLong s))
    ∧ (rustLen s ≤ 2048 → X.urlOk s = false → validateUrl X s = .error (.invalidUrl s))
    ∧ (rustLen s ≤ 2048 → X.urlOk s = true → validateUrl X s = .ok ()) := by
  refine ⟨?_, ?_, ?_⟩
  · intro h
    rw [validateUrl, if_pos (by rw [MAX_URL_LENGTH]; omega)]
  · intro h1 h2
    rw [validateUrl, if_neg (by rw [MAX_URL_LENGTH]; omega), if_neg (by simp [h2])]
  · intro h1 h2
    rw [validateUrl, if_neg (by rw [MAX_URL_LENGTH]; omega), if_pos h2]

/-- C7 witness: a 2049-byte unparseable string fails with `UrlTooLong` (not
`InvalidUrl`); a short unparseable string fails with `InvalidUrl`; a short
parseable one succeeds. -/
theorem C7_validate_url_order_witness :
    validateUrl X0 (String.mk (List.replicate 2049 'a'))
        = .error (.urlTooLong (String.mk (List.replicate 2049 'a')))
    ∧ validateUrl X0 "not a url" = .error (.invalidUrl "not a url")
    ∧ validateUrl X0 "https://example.com" = .ok () := by
  refine ⟨(C7_validate_url_order X0 _).1 ?_,
    (C7_validate_url_order X0 _).2.1 (by decide) (by decide),
    (C7_validate_url_order X0 _).2.2 (by decide) (by decide)⟩
  rw [rustLen_mk_replicate, show Char.utf8Size 'a' = 1 from by decide, Nat.mul_one]
  omega

/-- C8 (confirmed): `validate_date` succeeds exactly when the byte length is
at least 10, splitting on `-` yields at least three parts, the first part is
exactly 4 numeric characters, the second exactly 2, and the third has byte
length at least 2 with its first two characters numeric; no calendar validity
is checked (`2025-13-01` passes), and a trailing time/timezone suffix after
the day field is accepted. -/
theorem C8_validate_date_shape {F : Type} (s : String) :
    (validateDate (F := F) s = .ok () ↔
      (10 ≤ rustLen s
        ∧ 3 ≤ (rustSplitChar '-' s).length
        ∧ rustLen ((rustSplitChar '-' s).getD 0 "") = 4
        ∧ ((rustSplitChar '-' s).getD 0 "").data.all isNum = true
        ∧ rustLen ((rustSplitChar '-' s).getD 1 "") = 2
        ∧ ((rustSplitChar '-' s).getD 1 "").data.all isNum = true
        ∧ 2 ≤ rustLen ((rustSplitChar '-' s).getD 2 "")
        ∧ (((rustSplitChar '-' s).getD 2 "").data.take 2).all isNum = true))
    ∧ validateDate (F := Unit) "2025-13-01" = .ok ()
    ∧ validateDate (F := Unit) "2025-11-01T12:00:00Z" = .ok () := by
  refine ⟨?_, by decide, by decide⟩
  rw [validateDate]
  by_cases h1 : rustLen s < 10
  · rw [if_pos h1]
    exact iff_of_false (by simp) (by rintro ⟨hA, -, -, -, -, -, -, -⟩; omega)
  · rw [if_neg h1]
    dsimp only
    by_cases h2 : (rustSplitChar '-' s).length < 3
    · rw [if_pos h2]
      exact iff_of_false (by simp) (by rintro ⟨-, hB, -, -, -, -, -, -⟩; omega)
    · rw [if_neg h2]
      by_cases h3 : rustLen ((rustSplitChar '-' s).getD 0 "") = 4
          ∧ ((rustSplitChar '-' s).getD 0 "").data.all isNum = true
      · rw [if_neg (not_not.mpr h3)]
        by_cases h4 : rustLen ((rustSplitChar '-' s).getD 1 "") = 2
            ∧ ((rustSplitChar '-' s).getD 1 "").data.all isNum = true
        · rw [if_neg (not_not.mpr h4)]
          by_cases h5 : 2 ≤ rustLen ((rustSplitChar '-' s).getD 2 "")
              ∧ (((rustSplitChar '-' s).getD 2 "").data.take 2).all isNum = true
          · rw [if_neg (not_not.mpr h5)]
            exact iff_of_true rfl ⟨by omega, by omega, h3.1, h3.2, h4.1, h4.2, h5.1, h5.2⟩
          · rw [if_pos h5]
            exact iff_of_false (by simp)
              (by rintro ⟨-, -, -, -, -, -, hG, hH⟩; exact h5 ⟨hG, hH⟩)
        · rw [if_pos h4]
          exact iff_of_false (by simp)
            (by rintro ⟨-, -, -, -, hE, hF, -, -⟩; exact h4 ⟨hE, hF⟩)
      · rw [if_pos h3]
        exact iff_of_false (by simp)
          (by rintro ⟨-, -, hC, hD, -, -, -, -⟩; exact h3 ⟨hC, hD⟩)

/-- C3 (amended): with the validation toggle off, building skips every
Validator check including the whole-document size check: the builder returns
the rendered document whatever its size (the size check runs only when
validation is enabled). -/
theorem C3_validation_off_skips_size_check {F : Type} (X : Externals F)
    (entries : List (UrlEntry F)) :
    sitemapBuild X false entries = .ok (renderSitemap X entries) := rfl

/-- C3 counterexample: with validation off, a builder whose rendered document
exceeds 52,428,800 bytes succeeds rather than failing with `SizeExceeded`. -/
theorem C3_counterexample :
    sitemapBuild X0 false
        [{ loc := String.mk (List.replicate 52428801 'a'), lastmod := none,
           changefreq := none, priority := none }]
      = .ok (renderSitemap X0
          [{ loc := String.mk (List.replicate 52428801 'a'), lastmod := none,
             changefreq := none, priority := none }])
    ∧ 52428800 < rustLen (renderSitemap X0
        [{ loc := String.mk (List.replicate 52428801 'a'), lastmod := none,
           changefreq := none, priority := none }]) := by
  constructor
  · rfl
  · have hns := noSpecials_replicate_a 52428801
    have hesc := escapeXml_of_noSpecials hns
    have hqx := qxEscape_of_noSpecials hns
    have hlen : rustLen (String.mk (List.replicate 52428801 'a')) = 52428801 := by
      rw [rustLen_mk_replicate, show Char.utf8Size 'a' = 1 from by decide, Nat.mul_one]
    rw [renderSitemap, writeSitemapEvents]
    simp only [listEvents, List.map, List.flatten, writeUrlEntryEvents, writeTextElem,
      optEvents, List.cons_append, List.nil_append, List.append_assoc, List.append_nil]
    rw [hesc, hqx]
    simp only [serializeFrom, eventText, nextSt, initSt]
    simp only [rustLen_append]
    omega

/-- C6 (confirmed): for a combined batch of 1,001 otherwise-valid entries with
validation enabled, the applicable count ceiling depends on news presence:
with no news entry the 50,000 ceiling applies and validation passes, while
with at least one news entry the 1,000 ceiling applies and validation fails
with the news-count error. -/
theorem C6_combined_count_ceiling {F : Type} (X : Externals F)
    (entries : List (UrlWithExtensions F))
    (hlen : entries.length = 1001)
    (hvalid : ∀ e ∈ entries, combinedEntryCheck X e = .ok ()) :
    (entries.any (fun e => e.news.isSome) = false →
      combinedValidateEntries X true entries = .ok ())
    ∧ (entries.any (fun e => e.news.isSome) = true →
      combinedValidateEntries X true entries
        = .error (.validation "News sitemap exceeds maximum of 1000 URLs: 1001")) := by
  have hbody : combinedValidateEntries X true entries
      = (if entries.any (fun e => e.news.isSome) then
          (validateNewsUrlCount entries.length >>= fun _ =>
            checkAll (combinedEntryCheck X) entries)
        else
          (validateUrlCount entries.length >>= fun _ =>
            checkAll (combinedEntryCheck X) entries)) := rfl
  constructor
  · intro hnews
    rw [hbody, hnews, if_neg (by decide), hlen, validateUrlCount,
      if_neg (by rw [MAX_URLS]; omega), ebind_ok]
    exact checkAll_of_forall hvalid
  · intro hnews
    rw [hbody, hnews, if_pos rfl, hlen, validateNewsUrlCount,
      if_pos (by rw [MAX_NEWS_URLS]; omega), ebind_err]
    rw [show ("News sitemap exceeds maximum of " ++ toString MAX_NEWS_URLS ++ " URLs: "
      ++ toString 1001) = "News sitemap exceeds maximum of 1000 URLs: 1001" from by decide]

/-- C6 witness: 1,001 valid no-news entries pass the combined count check;
1,000 of them plus one news entry fail it. -/
theorem C6_combined_count_ceiling_witness :
    combinedValidateEntries X0 true (List.replicate 1001 plainCombinedEntry) = .ok ()
    ∧ combinedValidateEntries X0 true
        (List.replicate 1000 plainCombinedEntry ++ [newsCombinedEntry])
      = .error (.validation "News sitemap exceeds maximum of 1000 URLs: 1001") := by
  constructor
  · refine (C6_combined_count_ceiling X0 _ (by rw [List.length_replicate]) ?_).1 ?_
    · intro e he
      rw [List.eq_of_mem_replicate he]
      decide
    · exact any_replicate_of (by decide) 1001
  · refine (C6_combined_count_ceiling X0 _
      (by rw [List.length_append, List.length_replicate, List.length_singleton]) ?_).2 ?_
    · intro e he
      rcases List.mem_append.mp he with hm | hm
      · rw [List.eq_of_mem_replicate hm]
        decide
      · rw [List.mem_singleton.mp hm]
        decide
    · rw [List.any_append, any_replicate_of (by decide) 1000, Bool.false_or]
      decide

/-- C9 (amended): the index builder applies no entry-count ceiling — with
validation enabled, a batch of per-entry-valid index entries of any length
passes validation, and building never fails with `TooManyUrls` (though the
whole-document size check still applies: see the counterexample). -/
theorem C9_index_no_count_ceiling {F : Type} (X : Externals F)
    (entries : List SitemapIndexEntry)
    (hvalid : ∀ e ∈ entries, indexEntryCheck X e = .ok ()) :
    indexValidateEntries X true entries = .ok ()
    ∧ ∀ n, sitemapIndexBuild X true entries ≠ .error (.tooManyUrls n) := by
  have hv : indexValidateEntries X true entries = .ok () := checkAll_of_forall hvalid
  refine ⟨hv, ?_⟩
  intro n hcontra
  have hbuild : sitemapIndexBuild X true entries
      = (indexValidateEntries X true entries >>= fun _ =>
          (validateSize (rustLen (renderSitemapIndex entries)) >>= fun _ =>
            pure (renderSitemapIndex entries))) := rfl
  rw [hbuild, hv, ebind_ok] at hcontra
  rw [validateSize] at hcontra
  by_cases hsz : MAX_SIZE_BYTES < rustLen (renderSitemapIndex entries)
  · rw [if_pos hsz, ebind_err] at hcontra
    simp at hcontra
  · rw [if_neg hsz, ebind_ok] at hcontra
    simp [pure, Except.pure] at hcontra

/-- C9 witness: 50,001 valid index entries — more than the 50,000 plain
ceiling — pass validation, and building does not return `TooManyUrls`. -/
theorem C9_index_no_count_ceiling_witness :
    indexValidateEntries X0 true
        (List.replicate 50001 { loc := "http://a", lastmod := none }) = .ok ()
    ∧ sitemapIndexBuild X0 true
        (List.replicate 50001 { loc := "http://a", lastmod := none })
      ≠ .error (.tooManyUrls 50001) := by
  refine (fun h => ⟨h.1, h.2 50001⟩) (C9_index_no_count_ceiling X0 _ ?_)
  intro e he
  rw [List.eq_of_mem_replicate he]
  decide

theorem indexValidateEntries_eq_checkAll (X : Externals F) (entries : List SitemapIndexEntry) :
    indexValidateEntries X true entries = checkAll (indexEntryCheck X) entries := rfl

theorem rustLen_serializeFrom_flatten_replicate (st : SState) (blk rest : List XmlEvent)
    (h : blk.foldl nextSt st = st) (n : Nat) :
    rustLen (serializeFrom st ((List.replicate n blk).flatten ++ rest))
      = n * rustLen (serializeFrom st blk) + rustLen (serializeFrom st rest) := by
  induction n with
  | zero => simp [List.replicate]
  | succ n ih =>
    rw [List.replicate_succ, List.flatten_cons, List.append_assoc, serializeFrom_append, h,
      rustLen_append, ih]
    ring

/-- C9 counterexample: 1,100,000 valid index entries pass validation, but the
whole build fails (with `SizeExceeded`, the document being larger than
52,428,800 bytes) — so building does not succeed "regardless of how many
entries the list contains". -/
theorem C9_counterexample :
    indexEntryCheck X0 { loc := "http://a", lastmod := none } = .ok ()
    ∧ indexValidateEntries X0 true
        (List.replicate 1100000 { loc := "http://a", lastmod := none }) = .ok ()
    ∧ isOkE (sitemapIndexBuild X0 true
        (List.replicate 1100000 { loc := "http://a", lastmod := none })) = false := by
  have hv : indexValidateEntries X0 true
      (List.replicate 1100000 { loc := "http://a", lastmod := none }) = .ok () := by
    rw [indexValidateEntries_eq_checkAll]
    exact checkAll_replicate (by decide) 1100000
  refine ⟨by decide, hv, ?_⟩
  have hst : (writeIndexEntryEvents { loc := "http://a", lastmod := none }).foldl nextSt
      { level := 1, slb := true } = { level := 1, slb := true } := by decide
  have hB : rustLen (serializeFrom { level := 1, slb := true }
      (writeIndexEntryEvents { loc := "http://a", lastmod := none })) = 49 := by decide
  have hE : rustLen (serializeFrom { level := 1, slb := true }
      [XmlEvent.endTag "sitemapindex"]) = 16 := by decide
  have hsz : MAX_SIZE_BYTES < rustLen (renderSitemapIndex
      (List.replicate 1100000 { loc := "http://a", lastmod := none })) := by
    rw [renderSitemapIndex, writeSitemapIndexEvents, listEvents, List.map_replicate]
    simp only [List.cons_append, List.nil_append, List.append_assoc]
    rw [serializeFrom, serializeFrom]
    simp only [eventText, nextSt, initSt, Nat.zero_add]
    simp only [rustLen_append]
    rw [rustLen_serializeFrom_flatten_replicate _ _ _ hst, hB, hE, MAX_SIZE_BYTES]
    omega
  have hbuild : sitemapIndexBuild X0 true
      (List.replicate 1100000 { loc := "http://a", lastmod := none })
      = (indexValidateEntries X0 true
          (List.replicate 1100000 { loc := "http://a", lastmod := none }) >>= fun _ =>
          (validateSize (rustLen (renderSitemapIndex
            (List.replicate 1100000 { loc := "http://a", lastmod := none }))) >>= fun _ =>
            pure (renderSitemapIndex
              (List.replicate 1100000 { loc := "http://a", lastmod := none })))) := rfl
  rw [hbuild, hv, ebind_ok, validateSize, if_pos hsz, ebind_err]
  rfl

/-- C4 (amended): only the combined writer computes namespace declarations by
scanning the batch — its root declares `xmlns:image` / `xmlns:video` /
`xmlns:news` exactly when some entry has an image / a video / news. The plain
root declares only the base namespace, while the image, video and news writers
declare their own extension namespace unconditionally, even for batches in
which no entry uses the extension (see the counterexample). -/
theorem C4_namespace_declarations {F : Type} (X : Externals F) :
    (∀ entries : List (UrlWithExtensions F),
      ((("xmlns:image", imageNS) ∈ firstStartAttrs (writeCombinedSitemapEvents X entries))
        ↔ ∃ e ∈ entries, e.images ≠ [])
      ∧ ((("xmlns:video", videoNS) ∈ firstStartAttrs (writeCombinedSitemapEvents X entries))
        ↔ ∃ e ∈ entries, e.videos ≠ [])
      ∧ ((("xmlns:news", newsNS) ∈ firstStartAttrs (writeCombinedSitemapEvents X entries))
        ↔ ∃ e ∈ entries, e.news.isSome = true))
    ∧ (∀ entries : List (UrlEntry F),
        firstStartAttrs (writeSitemapEvents X entries) = [("xmlns", sitemapNS)])
    ∧ (∀ entries : List (UrlWithImages F),
        firstStartAttrs (writeImageSitemapEvents X entries)
          = [("xmlns", sitemapNS), ("xmlns:image", imageNS)])
    ∧ (∀ entries : List (UrlWithVideos F),
        firstStartAttrs (writeVideoSitemapEvents X entries)
          = [("xmlns", sitemapNS), ("xmlns:video", videoNS)])
    ∧ (∀ entries : List (UrlWithNews F),
        firstStartAttrs (writeNewsSitemapEvents (F := F) entries)
          = [("xmlns", sitemapNS), ("xmlns:news", newsNS)]) := by
  refine ⟨?_, fun _ => rfl, fun _ => rfl, fun _ => rfl, fun _ => rfl⟩
  intro entries
  have hf : firstStartAttrs (writeCombinedSitemapEvents X entries)
      = combinedRootAttrs entries := rfl
  have himg : (entries.any (fun e => !e.images.isEmpty) = true)
      ↔ ∃ e ∈ entries, e.images ≠ [] := by
    simp [List.any_eq_true]
  have hvid : (entries.any (fun e => !e.videos.isEmpty) = true)
      ↔ ∃ e ∈ entries, e.videos ≠ [] := by
    simp [List.any_eq_true]
  have hnws : (entries.any (fun e => e.news.isSome) = true)
      ↔ ∃ e ∈ entries, e.news.isSome = true := by
    simp [List.any_eq_true]
  refine ⟨?_, ?_, ?_⟩
  · rw [hf, ← himg, combinedRootAttrs]
    by_cases h1 : entries.any (fun e => !e.images.isEmpty) = true <;>
      by_cases h2 : entries.any (fun e => !e.videos.isEmpty) = true <;>
      by_cases h3 : entries.any (fun e => e.news.isSome) = true <;>
      simp [h1, h2, h3, imageNS, videoNS, newsNS, sitemapNS]
  · rw [hf, ← hvid, combinedRootAttrs]
    by_cases h1 : entries.any (fun e => !e.images.isEmpty) = true <;>
      by_cases h2 : entries.any (fun e => !e.videos.isEmpty) = true <;>
      by_cases h3 : entries.any (fun e => e.news.isSome) = true <;>
      simp [h1, h2, h3, imageNS, videoNS, newsNS, sitemapNS]
  · rw [hf, ← hnws, combinedRootAttrs]
    by_cases h1 : entries.any (fun e => !e.images.isEmpty) = true <;>
      by_cases h2 : entries.any (fun e => !e.videos.isEmpty) = true <;>
      by_cases h3 : entries.any (fun e => e.news.isSome) = true <;>
      simp [h1, h2, h3, imageNS, videoNS, newsNS, sitemapNS]

/-- C4 counterexample: the image-kind writer declares `xmlns:image` even when
no entry in the batch has any image, refuting the "if and only if" over every
entry-bearing document kind. -/
theorem C4_namespace_counterexample :
    ("xmlns:image", imageNS) ∈ firstStartAttrs (writeImageSitemapEvents X0
      [{ url := { loc := "http://a", lastmod := none, changefreq := none, priority := none },
         images := [] }])
    ∧ ([({ url := { loc := "http://a", lastmod := none, changefreq := none, priority := none },
           images := [] } : UrlWithImages Unit)].all (fun e => e.images.isEmpty)) = true := by
  exact ⟨by decide, by decide⟩

/-! ## Direct-child-name extraction lemmas (for C5) -/

theorem topAux_nil (d : Nat) : topNamesAux d [] = [] := by cases d <;> rfl

theorem topAux_start0 (n : String) (a : List (String × String)) (rest : List XmlEvent) :
    topNamesAux 0 (.start n a :: rest) = n :: topNamesAux 1 rest := rfl

theorem topAux_startS (d : Nat) (n : String) (a : List (String × String))
    (rest : List XmlEvent) :
    topNamesAux (d + 1) (.start n a :: rest) = topNamesAux (d + 1 + 1) rest := rfl

theorem topAux_endTag (d : Nat) (n : String) (rest : List XmlEvent) :
    topNamesAux d (.endTag n :: rest) = topNamesAux (d - 1) rest := by cases d <;> rfl

theorem topAux_text (d : Nat) (r : String) (rest : List XmlEvent) :
    topNamesAux d (.text r :: rest) = topNamesAux d rest := by cases d <;> rfl

/-- A three-event element (start, text, end) contributes nothing at depth
at least one. -/
theorem skips_elem3 (n : String) (a : List (String × String)) (r : String) (d : Nat)
    (rest : List XmlEvent) :
    topNamesAux (d + 1) (([.start n a, .text r, .endTag n] : List XmlEvent) ++ rest)
      = topNamesAux (d + 1) rest := by
  simp only [List.cons_append, List.nil_append]
  rw [topAux_startS, topAux_text, topAux_endTag]
  simp only [Nat.add_sub_cancel]

theorem skips_textElem (name t : String) (d : Nat) (rest : List XmlEvent) :
    topNamesAux (d + 1) (writeTextElem name t ++ rest) = topNamesAux (d + 1) rest := by
  rw [writeTextElem]
  exact skips_elem3 name [] (qxEscape (escapeXml t)) d rest

theorem skips_relElem (n rel body : String) (d : Nat) (rest : List XmlEvent) :
    topNamesAux (d + 1) (relationshipElem n rel body ++ rest) = topNamesAux (d + 1) rest := by
  rw [relationshipElem]
  exact skips_elem3 n [("relationship", rel)] (qxEscape body) d rest

theorem skips_opt_block {α : Type} (o : Option α) (f : α → List XmlEvent)
    (hf : ∀ x d rest, topNamesAux (d + 1) (f x ++ rest) = topNamesAux (d + 1) rest)
    (d : Nat) (rest : List XmlEvent) :
    topNamesAux (d + 1) (optEvents o f ++ rest) = topNamesAux (d + 1) rest := by
  cases o with
  | none => rw [show optEvents none f = [] from rfl, List.nil_append]
  | some x => exact hf x d rest

theorem skips_list_block {α : Type} (l : List α) (f : α → List XmlEvent)
    (hf : ∀ x d rest, topNamesAux (d + 1) (f x ++ rest) = topNamesAux (d + 1) rest)
    (d : Nat) (rest : List XmlEvent) :
    topNamesAux (d + 1) (listEvents l f ++ rest) = topNamesAux (d + 1) rest := by
  induction l with
  | nil => rw [show listEvents ([] : List α) f = [] from rfl, List.nil_append]
  | cons x t ih =>
    rw [show listEvents (x :: t) f = f x ++ listEvents t f from by simp [listEvents],
      List.append_assoc, hf x d _, ih]

/-- The single `image:geo_location` choice block of the image writer. -/
theorem skips_geoBlock (x : GeoLocation) (d : Nat) (rest : List XmlEvent) :
    topNamesAux (d + 1) ((fun geo =>
      match geo.city with
      | some city => writeTextElem "image:geo_location" city
      | none =>
        match geo.state with
        | some state => writeTextElem "image:geo_location" state
        | none =>
          match geo.country with
          | some country => writeTextElem "image:geo_location" country
          | none => []) x ++ rest) = topNamesAux (d + 1) rest := by
  rcases x with ⟨c, s, co⟩
  rcases c with _ | c
  · rcases s with _ | s
    · rcases co with _ | co
      · rw [show ((fun geo => match GeoLocation.city geo with
          | some city => writeTextElem "image:geo_location" city
          | none => match GeoLocation.state geo with
            | some state => writeTextElem "image:geo_location" state
            | none => match GeoLocation.country geo with
              | some country => writeTextElem "image:geo_location" country
              | none => []) { city := none, state := none, country := none })
          = ([] : List XmlEvent) from rfl, List.nil_append]
      · exact skips_textElem _ co d rest
    · exact skips_textElem _ s d rest
  · exact skips_textElem _ c d rest

theorem skips_restrBlock (x : VideoCountryRestriction) (d : Nat) (rest : List XmlEvent) :
    topNamesAux (d + 1) ((fun r =>
      match r with
      | VideoCountryRestriction.allow countries =>
        relationshipElem "video:restriction" "allow" (String.intercalate " " countries)
      | VideoCountryRestriction.deny countries =>
        relationshipElem "video:restriction" "deny" (String.intercalate " " countries)) x
      ++ rest) = topNamesAux (d + 1) rest := by
  cases x with
  | allow countries => exact skips_relElem _ _ _ d rest
  | deny countries => exact skips_relElem _ _ _ d rest

theorem skips_platBlock (x : VideoPlatformRestriction) (d : Nat) (rest : List XmlEvent) :
    topNamesAux (d + 1) ((fun p =>
      match p with
      | VideoPlatformRestriction.allow platforms =>
        relationshipElem "video:platform" "allow"
          (String.intercalate " " (platforms.map VideoPlatform.asStr))
      | VideoPlatformRestriction.deny platforms =>
        relationshipElem "video:platform" "deny"
          (String.intercalate " " (platforms.map VideoPlatform.asStr))) x
      ++ rest) = topNamesAux (d + 1) rest := by
  cases x with
  | allow platforms => exact skips_relElem _ _ _ d rest
  | deny platforms => exact skips_relElem _ _ _ d rest

theorem skips_uploaderBlock (x : VideoUploader) (d : Nat)
    (rest : List XmlEvent) :
    topNamesAux (d + 1) ((fun uploader =>
      match uploader.info_url with
      | some info =>
        [.start "video:uploader" [("info", info)],
         .text (qxEscape uploader.name),
         .endTag "video:uploader"]
      | none => writeTextElem "video:uploader" uploader.name) x ++ rest)
      = topNamesAux (d + 1) rest := by
  rcases x with ⟨name, info⟩
  rcases info with _ | info
  · exact skips_textElem _ _ d rest
  · exact skips_elem3 _ _ _ d rest

theorem names_textElem (name t : String) (rest : List XmlEvent) :
    topNamesAux 0 (writeTextElem name t ++ rest) = name :: topNamesAux 0 rest := by
  rw [writeTextElem]
  simp only [List.cons_append, List.nil_append]
  rw [topAux_start0, topAux_text, topAux_endTag]

theorem names_opt_block {α : Type} (o : Option α) (f : α → List XmlEvent) (name : String)
    (hf : ∀ x rest, topNamesAux 0 (f x ++ rest) = name :: topNamesAux 0 rest)
    (rest : List XmlEvent) :
    topNamesAux 0 (optEvents o f ++ rest) = optName o name ++ topNamesAux 0 rest := by
  cases o with
  | none =>
    rw [show optEvents none f = [] from rfl, List.nil_append,
      show optName (none : Option α) name = [] from rfl, List.nil_append]
  | some x =>
    rw [show optEvents (some x) f = f x from rfl, hf x rest,
      show optName (some x) name = [name] from rfl, List.singleton_append]

theorem names_list_block {α : Type} (l : List α) (f : α → List XmlEvent) (name : String)
    (hf : ∀ x rest, topNamesAux 0 (f x ++ rest) = name :: topNamesAux 0 rest)
    (rest : List XmlEvent) :
    topNamesAux 0 (listEvents l f ++ rest)
      = List.replicate l.length name ++ topNamesAux 0 rest := by
  induction l with
  | nil =>
    rw [show listEvents ([] : List α) f = [] from rfl, List.nil_append]
    rfl
  | cons x t ih =>
    rw [show listEvents (x :: t) f = f x ++ listEvents t f from by simp [listEvents],
      List.append_assoc, hf x _, ih, List.length_cons, List.replicate_succ,
      List.cons_append]

/-- An `image:image` block contributes exactly one direct child name. -/
theorem names_imageEntry (img : ImageEntry) (rest : List XmlEvent) :
    topNamesAux 0 (writeImageEntryEvents img ++ rest)
      = "image:image" :: topNamesAux 0 rest := by
  rw [writeImageEntryEvents]
  simp only [List.cons_append, List.nil_append, List.append_assoc]
  rw [topAux_start0]
  rw [skips_textElem]
  rw [skips_opt_block _ _ (fun x d rest => skips_textElem "image:caption" x d rest)]
  rw [skips_opt_block _ _ skips_geoBlock]
  rw [skips_opt_block _ _ (fun x d rest => skips_textElem "image:title" x d rest)]
  rw [skips_opt_block _ _ (fun x d rest => skips_textElem "image:license" x d rest)]
  rw [topAux_endTag]

/-- A `video:video` block contributes exactly one direct child name. -/
theorem names_videoEntry (X : Externals F) (video : VideoEntry F) (rest : List XmlEvent) :
    topNamesAux 0 (writeVideoEntryEvents X video ++ rest)
      = "video:video" :: topNamesAux 0 rest := by
  rw [writeVideoEntryEvents]
  simp only [List.cons_append, List.nil_append, List.append_assoc]
  rw [topAux_start0]
  rw [skips_textElem, skips_textElem, skips_textElem]
  rw [skips_opt_block _ _ (fun x d rest => skips_textElem "video:content_loc" x d rest)]
  rw [skips_opt_block _ _ (fun x d rest => skips_textElem "video:player_loc" x d rest)]
  rw [skips_opt_block _ _ (fun x d rest => skips_textElem "video:duration" (toString x) d rest)]
  rw [skips_opt_block _ _ (fun x d rest => skips_textElem "video:publication_date" x d rest)]
  rw [skips_opt_block _ _ (fun x d rest => skips_textElem "video:expiration_date" x d rest)]
  rw [skips_opt_block _ _ (fun x d rest => skips_textElem "video:rating" (X.fmtF x) d rest)]
  rw [skips_opt_block _ _ (fun x d rest => skips_textElem "video:view_count" (toString x) d rest)]
  rw [skips_opt_block video.family_friendly
    (fun ff => writeTextElem "video:family_friendly" (if ff then "yes" else "no"))
    (fun x d rest => skips_textElem "video:family_friendly" (if x then "yes" else "no") d rest)]
  rw [skips_list_block _ _ (fun x d rest => skips_textElem "video:tag" x d rest)]
  rw [skips_opt_block _ _ (fun x d rest => skips_textElem "video:category" x d rest)]
  rw [skips_opt_block _ _ skips_restrBlock]
  rw [skips_opt_block _ _ (fun x d rest => skips_textElem "video:gallery_loc" x d rest)]
  rw [skips_opt_block _ _ skips_platBlock]
  rw [skips_list_block video.prices
    (fun price =>
      [.start "video:price"
        (("currency", price.currency) ::
          ((match price.resolution with
            | some r => [("resolution", r)]
            | none => [])
            ++ (match price.type_ with
                | some t => [("type", t)]
                | none => []))),
       .text (qxEscape (X.fmtF price.amount)),
       .endTag "video:price"])
    (fun price d rest => skips_elem3 "video:price"
      (("currency", price.currency) ::
        ((match price.resolution with
          | some r => [("resolution", r)]
          | none => [])
          ++ (match price.type_ with
              | some t => [("type", t)]
              | none => [])))
      (qxEscape (X.fmtF price.amount)) d rest)]
  rw [skips_opt_block video.requires_subscription
    (fun r => writeTextElem "video:requires_subscription" r.asStr)
    (fun x d rest => skips_textElem "video:requires_subscription" x.asStr d rest)]
  rw [skips_opt_block _ _ skips_uploaderBlock]
  rw [skips_opt_block video.live
    (fun l => writeTextElem "video:live" l.asStr)
    (fun x d rest => skips_textElem "video:live" x.asStr d rest)]
  rw [topAux_endTag]

/-- A `news:news` block contributes exactly one direct child name. -/
theorem names_newsBlock (news : NewsEntry) (rest : List XmlEvent) :
    topNamesAux 0 (writeNewsBlockEvents news ++ rest)
      = "news:news" :: topNamesAux 0 rest := by
  rw [writeNewsBlockEvents]
  simp only [List.cons_append, List.nil_append, List.append_assoc]
  rw [topAux_start0, topAux_startS]
  rw [skips_textElem, skips_textElem, topAux_endTag]
  simp only [Nat.add_sub_cancel]
  rw [skips_textElem, skips_textElem]
  rw [skips_opt_block _ _ (fun x d rest => skips_textElem "news:keywords" x d rest)]
  rw [skips_opt_block _ _ (fun x d rest => skips_textElem "news:stock_tickers" x d rest)]
  rw [topAux_endTag]

theorem names_urlEntryBody (X : Externals F) (e : UrlEntry F) (rest : List XmlEvent) :
    topNamesAux 0 (urlEntryBody X e ++ rest) = plainChildNames e ++ topNamesAux 0 rest := by
  rw [urlEntryBody]
  simp only [List.append_assoc]
  rw [names_textElem]
  rw [names_opt_block e.lastmod (fun l => writeTextElem "lastmod" l) "lastmod"
    (fun x r => names_textElem "lastmod" x r)]
  rw [names_opt_block e.changefreq (fun c => writeTextElem "changefreq" c.asStr) "changefreq"
    (fun x r => names_textElem "changefreq" x.asStr r)]
  rw [names_opt_block e.priority (fun p => writeTextElem "priority" (X.fmtF p)) "priority"
    (fun x r => names_textElem "priority" (X.fmtF x) r)]
  rw [plainChildNames]
  simp [List.append_assoc]

theorem names_urlWithImagesBody (X : Externals F) (e : UrlWithImages F)
    (rest : List XmlEvent) :
    topNamesAux 0 (urlWithImagesBody X e ++ rest)
      = plainChildNames e.url ++ List.replicate e.images.length "image:image"
        ++ topNamesAux 0 rest := by
  rw [urlWithImagesBody]
  simp only [List.append_assoc]
  rw [names_textElem]
  rw [names_opt_block e.url.lastmod (fun l => writeTextElem "lastmod" l) "lastmod"
    (fun x r => names_textElem "lastmod" x r)]
  rw [names_opt_block e.url.changefreq (fun c => writeTextElem "changefreq" c.asStr) "changefreq"
    (fun x r => names_textElem "changefreq" x.asStr r)]
  rw [names_opt_block e.url.priority (fun p => writeTextElem "priority" (X.fmtF p)) "priority"
    (fun x r => names_textElem "priority" (X.fmtF x) r)]
  rw [names_list_block e.images writeImageEntryEvents "image:image"
    (fun x r => names_imageEntry x r)]
  rw [plainChildNames]
  simp [List.append_assoc]

theorem names_urlWithVideosBody (X : Externals F) (e : UrlWithVideos F)
    (rest : List XmlEvent) :
    topNamesAux 0 (urlWithVideosBody X e ++ rest)
      = ["loc"] ++ optName e.url.lastmod "lastmod"
        ++ List.replicate e.videos.length "video:video" ++ topNamesAux 0 rest := by
  rw [urlWithVideosBody]
  simp only [List.append_assoc]
  rw [names_textElem]
  rw [names_opt_block e.url.lastmod (fun l => writeTextElem "lastmod" l) "lastmod"
    (fun x r => names_textElem "lastmod" x r)]
  rw [names_list_block e.videos (writeVideoEntryEvents X) "video:video"
    (fun x r => names_videoEntry X x r)]
  simp [List.append_assoc]

theorem names_urlWithExtensionsBody (X : Externals F) (e : UrlWithExtensions F)
    (rest : List XmlEvent) :
    topNamesAux 0 (urlWithExtensionsBody X e ++ rest)
      = plainChildNames e.url ++ List.replicate e.images.length "image:image"
        ++ List.replicate e.videos.length "video:video" ++ optName e.news "news:news"
        ++ topNamesAux 0 rest := by
  rw [urlWithExtensionsBody]
  simp only [List.append_assoc]
  rw [names_textElem]
  rw [names_opt_block e.url.lastmod (fun l => writeTextElem "lastmod" l) "lastmod"
    (fun x r => names_textElem "lastmod" x r)]
  rw [names_opt_block e.url.changefreq (fun c => writeTextElem "changefreq" c.asStr) "changefreq"
    (fun x r => names_textElem "changefreq" x.asStr r)]
  rw [names_opt_block e.url.priority (fun p => writeTextElem "priority" (X.fmtF p)) "priority"
    (fun x r => names_textElem "priority" (X.fmtF x) r)]
  rw [names_list_block e.images writeImageEntryEvents "image:image"
    (fun x r => names_imageEntry x r)]
  rw [names_list_block e.videos (writeVideoEntryEvents X) "video:video"
    (fun x r => names_videoEntry X x r)]
  rw [names_opt_block e.news writeNewsBlockEvents "news:news"
    (fun x r => names_newsBlock x r)]
  rw [plainChildNames]
  simp [List.append_assoc]

/-- **C5** (corrected). Each entry of the plain, image, video and combined
writers renders as one `url` element whose direct children appear in the
fixed order `loc`, `lastmod`, `changefreq`, `priority`, then `image:image`
blocks, then `video:video` blocks, then one `news:news` block, each present
optional field emitted and each absent one omitted entirely — EXCEPT that
the video writer (`write_url_with_videos`) emits only `loc` and `lastmod`
from the page entry: it never emits `changefreq` or `priority`, even when
they are set, contrary to the claim's "in particular" sentence. -/
theorem C5_child_order {F : Type} (X : Externals F) :
    (∀ e : UrlEntry F,
      writeUrlEntryEvents X e
          = [.start "url" []] ++ urlEntryBody X e ++ [.endTag "url"]
        ∧ topNames (urlEntryBody X e) = plainChildNames e)
    ∧ (∀ e : UrlWithImages F,
      writeUrlWithImagesEvents X e
          = [.start "url" []] ++ urlWithImagesBody X e ++ [.endTag "url"]
        ∧ topNames (urlWithImagesBody X e)
            = plainChildNames e.url ++ List.replicate e.images.length "image:image")
    ∧ (∀ e : UrlWithVideos F,
      writeUrlWithVideosEvents X e
          = [.start "url" []] ++ urlWithVideosBody X e ++ [.endTag "url"]
        ∧ topNames (urlWithVideosBody X e)
            = ["loc"] ++ optName e.url.lastmod "lastmod"
              ++ List.replicate e.videos.length "video:video")
    ∧ (∀ e : UrlWithExtensions F,
      writeUrlWithExtensionsEvents X e
          = [.start "url" []] ++ urlWithExtensionsBody X e ++ [.endTag "url"]
        ∧ topNames (urlWithExtensionsBody X e)
            = plainChildNames e.url ++ List.replicate e.images.length "image:image"
              ++ List.replicate e.videos.length "video:video"
              ++ optName e.news "news:news") := by
  refine ⟨fun e => ⟨?_, ?_⟩, fun e => ⟨?_, ?_⟩, fun e => ⟨?_, ?_⟩, fun e => ⟨?_, ?_⟩⟩
  · rw [writeUrlEntryEvents, urlEntryBody]
    simp [List.append_assoc]
  · have h := names_urlEntryBody X e []
    rw [List.append_nil, topAux_nil, List.append_nil] at h
    rw [topNames]
    exact h
  · rw [writeUrlWithImagesEvents, urlWithImagesBody]
    simp [List.append_assoc]
  · have h := names_urlWithImagesBody X e []
    rw [List.append_nil, topAux_nil, List.append_nil] at h
    rw [topNames]
    exact h
  · rw [writeUrlWithVideosEvents, urlWithVideosBody]
    simp [List.append_assoc]
  · have h := names_urlWithVideosBody X e []
    rw [List.append_nil, topAux_nil, List.append_nil] at h
    rw [topNames]
    exact h
  · rw [writeUrlWithExtensionsEvents, urlWithExtensionsBody]
    simp [List.append_assoc]
  · have h := names_urlWithExtensionsBody X e []
    rw [List.append_nil, topAux_nil, List.append_nil] at h
    rw [topNames]
    exact h

/-- **C5 counterexample.** A video-document entry whose page entry has
`changefreq` and `priority` set renders a `url` element whose only
non-video child is `loc`: neither a `changefreq` nor a `priority` element
appears, refuting the claim's "in particular" sentence. -/
theorem C5_counterexample :
    topNames (urlWithVideosBody X0
      { url := { loc := "http://a", lastmod := none,
                 changefreq := some ChangeFreq.daily, priority := some () },
        videos := [] }) = ["loc"]
    ∧ "changefreq" ∉ topNames (urlWithVideosBody X0
      { url := { loc := "http://a", lastmod := none,
                 changefreq := some ChangeFreq.daily, priority := some () },
        videos := [] })
    ∧ "priority" ∉ topNames (urlWithVideosBody X0
      { url := { loc := "http://a", lastmod := none,
                 changefreq := some ChangeFreq.daily, priority := some () },
        videos := [] }) := by
  decide

end SitemapGen
